import Mathlib

/-!
Shallow embedding of the plumb message router (src/plumb) and proofs about
its specification claims.

Modelling conventions, fixed once here:
* Python `str`, `bytes` and `pathlib.Path` values are all modelled as Lean
  `String` (the code converts between them with `optstr`/`optpath`, which
  become identities of the model); `None` becomes `Option.none`, so the
  runtime value type `Value = str | bytes | Path | None` is `Option String`.
* Python `dict` is an association list with insert-or-overwrite-in-place
  semantics (`dictSet`), which preserves the key insertion order exactly as
  CPython dicts do.
* Python exceptions are an `Except Err` result; an exception aborts the
  routing of the current item, so theorems about session state are stated
  on `.ok` results.
* External library calls of the source that are not part of this repository
  (the `re` module, `fnmatch.fnmatchcase`, `os.getenv`, `Path.stat`, and
  byte-line iteration of an open file) are collected in a `Lib` record of
  oracles and passed explicitly.
* Byte strings read from files are modelled as `String` with `String.length`
  standing for the byte length of a chunk.
-/

namespace Plumb

/-- Python exception kinds raised by the embedded code paths. -/
inductive Err where
  | assertionError
  | typeError
  | attributeError
  | keyError
  | osError
  | valueError
  | nameError
  | fuelOut   -- not a source error: the fuel bound of the embedded while loop ran out
  deriving Repr, DecidableEq

/-- The runtime value type `str | bytes | Path | None` of aast.Value. -/
abbrev Value := Option String

/-- util.optstr: None stays None, everything else is coerced to str
(identity in this model, where str, bytes and Path are all `String`). -/
def optstr (v : Value) : Option String := v

/-- util.optpath: None stays None, everything else is wrapped in Path
(identity in this model). -/
def optpath (v : Value) : Option String := v

/-- Python truthiness of a `str | None` value: None and the empty string
are falsy. -/
def truthyStr : Option String → Bool
  | none => false
  | some s => s ≠ ""

section Dict

variable {K V : Type} [DecidableEq K]

/-- `d[k]` lookup of a Python dict modelled as an association list. -/
def dictGet (d : List (K × V)) (k : K) : Option V :=
  match d with
  | [] => none
  | (k0, v0) :: rest => if k0 = k then some v0 else dictGet rest k

/-- `d[k] = v` of a Python dict: overwrite in place, else append;
this preserves CPython key insertion order. -/
def dictSet (d : List (K × V)) (k : K) (v : V) : List (K × V) :=
  match d with
  | [] => [(k, v)]
  | (k0, v0) :: rest => if k0 = k then (k0, v) :: rest else (k0, v0) :: dictSet rest k v

/-- `del d[k]` (used by the source only under an `if k in d` guard, so the
unconditional filter is equivalent). -/
def dictDel (d : List (K × V)) (k : K) : List (K × V) :=
  d.filter (fun p => ¬(p.1 = k))

theorem dictGet_dictSet (d : List (K × V)) (k k2 : K) (v : V) :
    dictGet (dictSet d k v) k2 = if k2 = k then some v else dictGet d k2 := by
  induction d with
  | nil =>
      simp only [dictSet, dictGet]
      by_cases h : k = k2
      · subst h; simp
      · have hs : ¬(k2 = k) := fun hh => h hh.symm
        simp [h, hs]
  | cons p rest ih =>
    obtain ⟨k0, v0⟩ := p
    by_cases h0 : k0 = k
    · subst h0
      by_cases h2 : k0 = k2
      · subst h2; simp [dictSet, dictGet]
      · have h2s : ¬(k2 = k0) := fun hh => h2 hh.symm
        simp [dictSet, dictGet, h2, h2s]
    · by_cases h2 : k0 = k2
      · subst h2
        simp [dictSet, dictGet, h0]
      · simp [dictSet, dictGet, h0, h2, ih]

theorem dictGet_dictDel (d : List (K × V)) (k k2 : K) :
    dictGet (dictDel d k) k2 = if k2 = k then none else dictGet d k2 := by
  induction d with
  | nil =>
      simp [dictDel, dictGet]
  | cons p rest ih =>
    obtain ⟨k0, v0⟩ := p
    have hstep : dictDel ((k0, v0) :: rest) k
        = if k0 = k then dictDel rest k else (k0, v0) :: dictDel rest k := by
      by_cases h0 : k0 = k <;> simp [dictDel, List.filter_cons, h0]
    rw [hstep]
    by_cases h0 : k0 = k
    · subst h0
      rw [if_pos rfl, ih]
      by_cases h2 : k2 = k0
      · subst h2; simp
      · have h2s : ¬(k0 = k2) := fun hh => h2 hh.symm
        simp [dictGet, h2, h2s]
    · rw [if_neg h0]
      by_cases h2 : k0 = k2
      · subst h2
        simp [dictGet, h0]
      · simp [dictGet, h2, ih]

end Dict

section Paths

/-- Splitting a character list on the separator (an executable stand-in
for str.split("/") that the kernel can evaluate). -/
def splitSlash : List Char → List (List Char)
  | [] => [[]]
  | c :: rest =>
      let r := splitSlash rest
      if c = '/' then [] :: r
      else
        match r with
        | [] => [[c]]
        | g :: gs => (c :: g) :: gs

/-- Non-empty components of a POSIX path string. -/
def pathComponents (s : String) : List String :=
  ((splitSlash s.toList).map String.mk).filter (fun c => c ≠ "")

def pathIsAbs (s : String) : Bool :=
  match s.toList with
  | '/' :: _ => true
  | _ => false

/-- `"/".join(cs)` on the component list. -/
def joinSlash : List String → String
  | [] => ""
  | [c] => c
  | c :: rest => c ++ "/" ++ joinSlash rest

/-- `s.endswith(os.path.sep)` with the POSIX separator. -/
def endsWithSep (s : String) : Bool :=
  match s.toList.getLast? with
  | some '/' => true
  | _ => false

/-- `op.lower()`. -/
def pyLower (s : String) : String :=
  String.mk (s.toList.map Char.toLower)

/-- `str(Path(s))` for well-formed POSIX path strings (no `.`/`..`
components; this is the fragment the routed names use). -/
def pathNorm (s : String) : String :=
  let cs := pathComponents s
  if pathIsAbs s then "/" ++ joinSlash cs
  else if cs = [] then "." else joinSlash cs

/-- `str(Path(a).joinpath(b))`. -/
def pathJoin (a b : String) : String :=
  if pathIsAbs b then pathNorm b else pathNorm (a ++ "/" ++ b)

/-- `Path(s).name`: the final component. -/
def pathName (s : String) : String :=
  (pathComponents s).getLast? |>.getD ""

/-- `str(Path(s).parent)`. -/
def pathParent (s : String) : String :=
  let cs := (pathComponents s).dropLast
  if pathIsAbs s then "/" ++ joinSlash cs
  else if cs = [] then "." else joinSlash cs

end Paths

/-- routable.Routable. `data`/`original_data` are values that the code
guards with None checks, hence `Option String` here. -/
structure Routable where
  src : String
  dst : String
  data : Option String
  original_data : Option String
  type : String
  wdir : Option String
  attr : List (String × String)
  deriving Repr, DecidableEq

/-- aast.CommandResult. -/
inductive CommandResult where
  | NEXT_COMMAND
  | NEXT_RULE
  | STOP
  deriving Repr, DecidableEq

/-- world.Op. `requires_op`/`provides_op` hold object references in the
source; here they hold indices into `World.ops`. -/
structure Op where
  type : String
  args : List String
  requires_names : List String := []
  requires_op : List Nat := []
  provides_names : List String := []
  provides_op : List Nat := []
  ready_ : Bool := false
  executed : Bool := false
  deriving Repr, DecidableEq

/-- ast expression nodes: ExprLiteral, VariableReference, StringConcatExpr,
EnvironmentLookupExpr. -/
inductive Expr where
  | lit (val : String)
  | varref (var : String)
  | concat (parts : List Expr)
  | envlookup (name : Expr)

/-- ast.as_constant. -/
def as_constant : Expr → Option String
  | .lit v => some v
  | _ => none

/-- The runtime identity of one ast.GrepCondition node (a grep site).
`gid` models the CPython object id used as the grep-cache key;
`from_offset`/`to_offset` are the byte-range fields of the node. -/
structure GrepSite where
  gid : Nat
  pattern : Expr
  from_offset : Option Int := none
  to_offset : Option Int := none

/-- ast condition nodes. Every Condition instance carries the
`datasource` attribute of the aast.Condition base class. -/
inductive Cond where
  | and (datasource : Option Expr) (children : List Cond)
  | or (datasource : Option Expr) (children : List Cond)
  | not (datasource : Option Expr) (child : Cond)
  | glob (datasource : Option Expr) (pattern : Expr)
  | regex (datasource : Option Expr) (pattern : Expr)
  | statFileType (datasource : Option Expr) (filetype : String)
  | grep (datasource : Option Expr) (site : GrepSite)

/-- The argument of ast.InspectAction: the token `all`, an expression, a
condition, or the defaulted None. -/
inductive InspectArg where
  | all
  | expr (e : Expr)
  | cond (c : Cond)
  | noneArg

/-- ast command nodes: RuleCommand, ConditionCommand, SetVariable,
CopyToAction, MoveToAction, StopAction, InspectAction. -/
inductive Command where
  | rule (label : String)
  | conditionCmd (condition : Cond)
  | setVariable (var : String) (rhs : Expr)
  | copyTo (destination : Expr)
  | moveTo (destination : Expr)
  | stop
  | inspect (arg : InspectArg)

def Command.isRule : Command → Bool
  | .rule _ => true
  | _ => false

/-- State of one suspended GrepCondition._matcher generator: the running
byte counter and the last value assigned to `hit` (both persist across
sent lines). -/
structure MState where
  seen_bytes : Nat := 0
  hit : Bool := false
  deriving Repr, DecidableEq

/-- One live entry of the `regexen` dict inside GrepCondition._check_all:
the grep site, its constant pattern (compiled once), and its matcher
state. -/
structure ChkEntry where
  g : GrepSite
  pat : String
  m : MState

/-- State of one suspended GrepCondition._check_all generator. The Python
`misses` set is a list here; its membership is only ever used under a
cache-unset guard, so duplicates are inert. -/
structure ChkState where
  regexen : List ChkEntry
  misses : List GrepSite

/-- One entry of World.reads: the unread lines of the suspended open
reader, and the parked coalesced-scan state. -/
structure ReadState where
  remaining : List String
  chk : ChkState

/-- The grep result cache `world.greps`: site id, then path, to bool. -/
abbrev GrepsMap := List (Nat × List (String × Bool))

def grepsGet (G : GrepsMap) (gid : Nat) (d : String) : Option Bool :=
  (dictGet G gid).bind (fun m => dictGet m d)

def grepsSet (G : GrepsMap) (gid : Nat) (d : String) (b : Bool) : GrepsMap :=
  dictSet G gid (dictSet ((dictGet G gid).getD []) d b)

/-- world.World.

The fields `greps` and `reads` are used by ast.GrepCondition.check
(`world.greps[...]`, `world.reads[...]`) but `World.__init__` in
src/plumb/world.py never initializes them. Modelled from the spec:
they are the session-owned Grep cache (spec section 3, "Grep cache (G)")
and Resumable-read table, initially empty. -/
structure World where
  dry_run : Bool := true
  _stat_cache : List (String × Nat) := []   -- path to st_mode bits
  mode : CommandResult := .NEXT_COMMAND
  vars : List (String × Option String) := []
  obj : Option Routable := none
  ops : List Op := []
  pending_ops : List Nat := []
  rsync : List (String × List Nat) := []
  move_files : List (String × List Nat) := []
  shell_commands : List Nat := []
  greps : GrepsMap := []
  reads : List (String × ReadState) := []

/-- External collaborators of the source (Python stdlib), specified at
their interface: byte regex search/str regex match, fnmatch, getenv, and
the filesystem (`none` from `fsStat`/`fsLines` models the raised OSError). -/
structure ReMatch where
  group0 : String
  groups : List (Option String)
  groupdict : List (String × Option String)

structure Lib where
  reSearch : String → String → Bool
  reMatch : String → String → Option ReMatch
  fnmatchcase : String → String → Bool
  getenv : String → Option String
  fsStat : String → Option Nat
  fsLines : String → Option (List String)

/-- `",".join(f"{k}={v}" for k, v in attr.items())`. -/
def joinComma : List String → String
  | [] => ""
  | [c] => c
  | c :: rest => c ++ "," ++ joinComma rest

def attrRender (attr : List (String × String)) : String :=
  joinComma (attr.map (fun kv => kv.1 ++ "=" ++ kv.2))

/-- Python str.partition on the first occurrence of `sep`. -/
def strPartition (o sep : String) : String × String × String :=
  match o.splitOn sep with
  | [] => (o, "", "")
  | [a] => (a, "", "")
  | a :: rest => (a, sep, String.intercalate sep rest)

/-- Unpacking one string as `k, _, v`: Python tuple unpacking of a string
iterates its characters, so this succeeds exactly when the string has
three characters, and raises ValueError otherwise. -/
def unpack3 (s : String) : Except Err (String × String) :=
  match s.toList with
  | [k, _, v] => .ok (String.mk [k], String.mk [v])
  | _ => .error .valueError

def attrPairsGo (acc : List (String × String)) :
    List String → Except Err (List (String × String))
  | [] => .ok acc
  | s :: rest => do
      let (k, v) ← unpack3 s
      attrPairsGo (dictSet acc k v) rest

/-- The dict comprehension of World.set_var for `attr`:
`{k: v for o in strvalue.split(",") for k, _, v in o.partition("=")}`.
Each element of the partition triple is itself unpacked as `(k, _, v)`. -/
def attrPairs (strvalue : String) : Except Err (List (String × String)) :=
  attrPairsGo []
    ((strvalue.splitOn ",").flatMap
      (fun o => let p := strPartition o "="; [p.1, p.2.1, p.2.2]))

namespace World

/-- World.var. The `assert self.obj` failure is the assertionError result. -/
def var (w : World) (key : String) (default : Value) : Except Err Value :=
  match w.obj with
  | none => .error .assertionError
  | some obj =>
    match key with
    | "attr" => .ok (some (attrRender obj.attr))
    | "data" => .ok obj.data
    | "dst" => .ok (some obj.dst)
    | "type" => .ok (some obj.type)
    | "src" => .ok (some obj.src)
    | "wdir" => .ok obj.wdir
    | _ => .ok ((dictGet w.vars key).getD default)

/-- The final `self.vars[key] = value` write of World.set_var. For keys
outside the reserved match (in particular `"dir"` and `"file"`) set_var
reduces to exactly this write, so init_obj_dir_vars uses it directly,
breaking the mutual recursion of the source. -/
def set_plain_var (w : World) (key : String) (value : Option String) : World :=
  { w with vars := dictSet w.vars key value }

/-- World.init_obj_dir_vars. -/
def init_obj_dir_vars (w : World) : Except Err World :=
  match w.obj with
  | none => .error .assertionError
  | some obj =>
    match obj.wdir, optstr obj.data with
    | some wd, some dat =>
        let w := w.set_plain_var "dir" (some (pathParent (pathJoin wd dat)))
        let w := w.set_plain_var "file" (some (pathJoin wd dat))
        .ok w
    | _, _ => .ok w

/-- World.set_var. -/
def set_var (w : World) (key : String) (value : Option String) :
    Except Err World := do
  match w.obj with
  | none => .error .assertionError
  | some obj =>
    let strvalue := value.getD ""
    let w1 ←
      match key with
      | "attr" => do
          let pairs ← attrPairs strvalue
          pure { w with obj := some { obj with attr := pairs } }
      | "data" => pure { w with obj := some { obj with data := some strvalue } }
      | "dst" => pure { w with obj := some { obj with dst := strvalue } }
      | "type" => pure { w with obj := some { obj with type := strvalue } }
      | "src" => pure { w with obj := some { obj with src := strvalue } }
      | "wdir" =>
          if truthyStr value then
            ({ w with obj := some { obj with wdir := some (pathNorm (value.getD "")) } }).init_obj_dir_vars
          else
            pure { w with obj := some { obj with wdir := none } }
      | _ => pure w
    pure (w1.set_plain_var key value)

/-- World.next_obj: install the routable and project its fields into vars. -/
def next_obj (w : World) (obj : Routable) : Except Err World := do
  let w := { w with obj := some obj }
  let w ← w.init_obj_dir_vars
  let vs := w.vars
  let vs := dictSet vs "attr" (some (attrRender obj.attr))
  let vs := dictSet vs "data" obj.data
  let vs := dictSet vs "dst" (some obj.dst)
  let vs := dictSet vs "type" (some obj.type)
  let vs := dictSet vs "src" (some obj.src)
  let vs := dictSet vs "wdir" obj.wdir
  pure { w with vars := vs }

/-- World.stat_path. `Path(p).stat()` raising on a missing path is the
osError result; nothing in the source catches it. -/
def stat_path (lib : Lib) (w : World) (path : Option String) :
    Except Err (Option Nat × World) :=
  match path with
  | none => .ok (none, w)
  | some p =>
    let step : Except Err World :=
      if (dictGet w._stat_cache p).isNone then
        match lib.fsStat p with
        | none => .error .osError
        | some st => .ok { w with _stat_cache := dictSet w._stat_cache p st }
      else .ok w
    match step with
    | .error e => .error e
    | .ok w2 =>
      match dictGet w2._stat_cache p with
      | some st => .ok (some st, w2)
      | none => .error .keyError

end World

end Plumb

namespace Plumb

/-!
## Parser lowering (grammar.CommandTree)

The LALR parse trees that lark hands to the transformer are embedded as
tree types below, one constructor per grammar production that reaches the
transformer (inlined `_`-rules such as parentheses do not appear, exactly
as in lark). The transformer methods become the lowering functions; lark
transforms children left to right before invoking the parent handler, and
that order is preserved in the monadic sequencing here.
-/

mutual
/-- Parse trees of the `expr` production: exprliteral (BAREWORD), varref,
fstr, envlookup. -/
inductive ExprTree where
  | bareword (s : String)
  | varrefT (s : String)
  | fstr (parts : List FstrPartTree)
  | envlookupT (e : ExprTree)

/-- Parse trees of `_fstr_contents`: a FEXPR_STRING_CHAR token, an
ESCAPED_CHAR token (under the `escaped_char` rule), or a braced `expr`. -/
inductive FstrPartTree where
  | strChar (s : String)
  | escaped (s : String)
  | fexpr (e : ExprTree)
end

/-- A transformed child of the `fstr` rule, as the fstr handler sees it:
a remaining FEXPR_STRING_CHAR token, a transformed expression, or the
plain one-character string returned by the escaped_char handler (a str,
not a Token and not an Expr). -/
inductive FPart where
  | tok (s : String)
  | expr (e : Expr)
  | plain (s : String)

/-- CommandTree.escaped_char: `assert char[0] == "\\"; return char[1]`.
The returned value is a plain str. -/
def escaped_char (s : String) : Except Err String :=
  if s.take 1 = "\\" then .ok ((s.drop 1).take 1) else .error .assertionError

/-- The fusion loop of CommandTree.fstr. Literal pieces (ExprLiteral or
FEXPR_STRING_CHAR) merge into the previous ExprLiteral when there is one;
other expressions append unfused; any other part (in particular the plain
str produced by escaped_char) hits the `assert False` arm. The branch of
the source for a trailing lark.Token in `fused` is dead (only Expr values
are ever appended) and is not represented. -/
def fstrFuse (fused : List Expr) : List FPart → Except Err (List Expr)
  | [] => .ok fused
  | p :: rest =>
    match p with
    | .expr (Expr.lit v) | .tok v =>
      match fused.getLast? with
      | some (Expr.lit lv) => fstrFuse (fused.dropLast ++ [Expr.lit (lv ++ v)]) rest
      | some _ => fstrFuse (fused ++ [Expr.lit v]) rest
      | none => fstrFuse (fused ++ [Expr.lit v]) rest
    | .expr e => fstrFuse (fused ++ [e]) rest
    | .plain _ => .error .assertionError

/-- The final `match len(fused)` of CommandTree.fstr. -/
def fstrResult (fused : List Expr) : Expr :=
  match fused with
  | [e] => e
  | [] => .lit ""
  | _ => .concat fused

mutual
/-- Lowering of `expr` parse trees: the handlers exprliteral, varref,
envlookup and fstr of CommandTree. -/
def lowerExpr : ExprTree → Except Err Expr
  | .bareword s => .ok (.lit s)
  | .varrefT s => .ok (.varref s)
  | .envlookupT t => (lowerExpr t).map .envlookup
  | .fstr parts => do
      let ps ← lowerFParts parts
      let fused ← fstrFuse [] ps
      pure (fstrResult fused)

def lowerFParts : List FstrPartTree → Except Err (List FPart)
  | [] => .ok []
  | .strChar s :: rest => (lowerFParts rest).map (fun l => .tok s :: l)
  | .escaped s :: rest => do
      let c ← escaped_char s
      (lowerFParts rest).map (fun l => .plain c :: l)
  | .fexpr t :: rest => do
      let e ← lowerExpr t
      (lowerFParts rest).map (fun l => .expr e :: l)
end

def lowerExprList : List ExprTree → Except Err (List Expr)
  | [] => .ok []
  | t :: rest => do
      let e ← lowerExpr t
      let es ← lowerExprList rest
      pure (e :: es)

/-- The keys of ast.StatFileTypeCondition.MODE_TYPES. -/
def MODE_TYPES_keys : List String :=
  ["dir", "chardev", "blockdev", "file", "fifo", "pipe", "sock", "door",
   "port", "wht", "whiteout"]

/-- Parse trees of the four condition atoms. -/
inductive AtomTree where
  | glob (pats : List ExprTree)
  | matchT (f : ExprTree)
  | grepT (f : ExprTree)
  | is_filemodetype (filetype : String)

/-- Parse trees of `_conditionexpr`. Parentheses are inlined away by the
grammar and do not appear. -/
inductive CondTree where
  | condition (datasource : Option ExprTree) (atom : AtomTree)
  | notcondition (child : CondTree)
  | junction (lhs : CondTree) (op : String) (rhs : CondTree)

/-- Setting `condition.datasource = datasource` on a node (the aast base
class attribute, replaced in place by the condition handler). -/
def Cond.set_datasource : Cond → Option Expr → Cond
  | .and _ cs, ds => .and ds cs
  | .or _ cs, ds => .or ds cs
  | .not _ c, ds => .not ds c
  | .glob _ p, ds => .glob ds p
  | .regex _ p, ds => .regex ds p
  | .statFileType _ f, ds => .statFileType ds f
  | .grep _ g, ds => .grep ds g

/-- CommandTree.glob: one pattern gives a GlobCondition, several give an
OrCondition of GlobConditions. -/
def globLower (ps : List Expr) : Cond :=
  match ps with
  | [p] => .glob none p
  | _ => .or none (ps.map (fun p => .glob none p))

inductive JKind where
  | andK
  | orK

/-- The `case node(children)` class pattern of the peephole collapse:
returns the datasource and children when the condition is the selected
connective. -/
def matchNode : JKind → Cond → Option (Option Expr × List Cond)
  | .andK, .and ds cs => some (ds, cs)
  | .orK, .or ds cs => some (ds, cs)
  | _, _ => none

def mkNode : JKind → Option Expr → List Cond → Cond
  | .andK, ds, cs => .and ds cs
  | .orK, ds, cs => .or ds cs

/-- The peephole collapse of CommandTree.junctioncondition: flatten an
operand that is the same connective; the in-place `children` mutations
keep the mutated operand node (and hence its datasource), and the fresh
node of the last arm gets the class-default datasource None. -/
def junctionCore (node : JKind) (lhs rhs : Cond) : Cond :=
  match matchNode node lhs, matchNode node rhs with
  | some (lds, lcs), some (_, rcs) => mkNode node lds (lcs ++ rcs)
  | some (lds, lcs), none => mkNode node lds (lcs ++ [rhs])
  | none, some (rds, rcs) => mkNode node rds (lhs :: rcs)
  | none, none => mkNode node none [lhs, rhs]

/-- CommandTree.junctioncondition. `node` starts as AndCondition and the
`match op.lower()` switches it. The source also has arms for a defaulted
`rhs = None`, unreachable from the grammar where the right operand is a
required child; those arms are omitted. -/
def junctioncondition (lhs : Cond) (op : String) (rhs : Cond) : Cond :=
  junctionCore
    (if pyLower op = "and" then .andK
     else if pyLower op = "or" then .orK
     else .andK)
    lhs rhs

/-- Lowering of the four atoms: handlers glob, match, grep and
is_filemodetype of CommandTree. -/
def lowerAtom : AtomTree → Except Err Cond
  | .glob pats => (lowerExprList pats).map globLower
  | .matchT f => (lowerExpr f).map (fun e => .regex none e)
  | .grepT f => do
      let _ ← lowerExpr f
      -- CommandTree.grep runs `GrepCondition(regex)`: the dataclass has two
      -- required init fields (condition_args, pattern), so a single
      -- positional argument leaves `pattern` unbound and __init__ raises
      -- TypeError before any node is produced.
      .error .typeError
  | .is_filemodetype ft =>
      if ft ∈ MODE_TYPES_keys then .ok (.statFileType none ft)
      else .error .assertionError

/-- Lowering of condition expressions: handlers condition, notcondition and
junctioncondition of CommandTree. -/
def lowerCond : CondTree → Except Err Cond
  | .condition ds atom => do
      let d ← match ds with
        | none => pure (none : Option Expr)
        | some t => (lowerExpr t).map some
      let c ← lowerAtom atom
      pure (c.set_datasource d)
  | .notcondition t => (lowerCond t).map (fun c => .not none c)
  | .junction l op r => do
      let lc ← lowerCond l
      let rc ← lowerCond r
      pure (junctioncondition lc op rc)

/-- Parse trees of `_command`. -/
inductive CmdTree where
  | rulecommand (label : String)
  | conditioncommand (c : CondTree)
  | setvar (var : String) (rhs : ExprTree)
  | copyto (e : ExprTree)
  | moveto (e : ExprTree)
  | stop
  | inspectAll
  | inspectExpr (e : ExprTree)
  | inspectNone

/-- Lowering of one command: the remaining CommandTree handlers. -/
def lowerCommand : CmdTree → Except Err Command
  | .rulecommand l => .ok (.rule l)
  | .conditioncommand t => (lowerCond t).map .conditionCmd
  | .setvar v r => (lowerExpr r).map (.setVariable v)
  | .copyto t => (lowerExpr t).map .copyTo
  | .moveto t => (lowerExpr t).map .moveTo
  | .stop => .ok .stop
  | .inspectAll => .ok (.inspect .all)
  | .inspectExpr t => (lowerExpr t).map (fun e => .inspect (.expr e))
  | .inspectNone => .ok (.inspect .noneArg)

/-- The `start` handler: the tuple of lowered commands. -/
def lowerProgram : List CmdTree → Except Err (List Command)
  | [] => .ok []
  | t :: rest => do
      let c ← lowerCommand t
      let cs ← lowerProgram rest
      pure (c :: cs)

def isOr : Cond → Bool
  | .or _ _ => true
  | _ => false

mutual
/-- Or-flatness: no direct child of an Or node is itself an Or node,
recursively through the whole tree. -/
def noOrOr : Cond → Bool
  | .or _ cs => noOrOrChildren cs
  | .and _ cs => noOrOrList cs
  | .not _ c => noOrOr c
  | _ => true

def noOrOrList : List Cond → Bool
  | [] => true
  | c :: cs => noOrOr c && noOrOrList cs

def noOrOrChildren : List Cond → Bool
  | [] => true
  | c :: cs => !isOr c && noOrOr c && noOrOrChildren cs
end

end Plumb

namespace Plumb

/-!
## Expression evaluation and the match engine (ast.py)
-/

mutual
/-- Expression evaluation: ExprLiteral.eval, VariableReference.eval,
StringConcatExpr.eval, EnvironmentLookupExpr.eval. Evaluation reads the
world but never mutates it; `genv` is the ambient os.getenv (the only
external call expressions make). -/
def evalExpr (genv : String → Option String) (w : World) (value : Routable) :
    Expr → Except Err Value
  | .lit v => .ok (some v)
  | .varref name => w.var name none
  | .concat parts => do
      let ss ← evalParts genv w value parts
      pure (some (String.join ss))
  | .envlookup e => do
      let n ← evalExpr genv w value e
      pure (match optstr n with
        | some s => genv s
        | none => none)

/-- `"".join(optstr(p.eval(world, value)) or "" for p in self.parts)`. -/
def evalParts (genv : String → Option String) (w : World) (value : Routable) :
    List Expr → Except Err (List String)
  | [] => .ok []
  | p :: rest => do
      let v ← evalExpr genv w value p
      let vs ← evalParts genv w value rest
      pure (((optstr v).getD "") :: vs)
end

/-- aast.Condition.get_str_data. -/
def get_str_data (genv : String → Option String) (ds : Option Expr)
    (w : World) (value : Routable) : Except Err (Option String) :=
  match ds with
  | none => .ok (optstr value.data)
  | some e => (evalExpr genv w value e).map optstr

/-- aast.Condition.get_path_data. -/
def get_path_data (genv : String → Option String) (ds : Option Expr)
    (w : World) (value : Routable) : Except Err (Option String) :=
  match ds with
  | none => .ok (optpath value.data)
  | some e => (evalExpr genv w value e).map optpath

/-- One `send(line)` step of the GrepCondition._matcher generator: the
received line is optionally inset (a branch whose guard
`from_offset < seen and seen + len(line) < from_offset` is unsatisfiable,
kept for fidelity), searched when the byte counter is in range, and the
generator yields `(hit, done)` computed after the updates. Note that
`done` is True whenever `to_offset is None`, exactly as in the source. -/
def matcherStep (from_offset to_offset : Option Int) (search : String → Bool)
    (st : MState) (line : String) : (Bool × Bool) × MState :=
  let seen := st.seen_bytes
  let lineSeen : String × Nat :=
    match from_offset with
    | some fo =>
        if fo < (seen : Int) ∧ (seen : Int) + (line.length : Int) < fo then
          let inset := (fo - (seen : Int)).toNat
          (line.drop inset, seen + inset)
        else (line, seen)
    | none => (line, seen)
  let line := lineSeen.1
  let seen := lineSeen.2
  let inRange :=
    (match from_offset with
     | none => true
     | some fo => decide ((seen : Int) ≤ fo)) &&
    (match to_offset with
     | none => true
     | some t => decide (t > (seen : Int)))
  let hitSeen : Bool × Nat :=
    if inRange then
      let endB : Int := match to_offset with | none => -1 | some t => 1 + t - (seen : Int)
      let seen2 := seen + line.length
      let line2 := if endB ≥ 0 ∧ (line.length : Int) > endB then line.take endB.toNat else line
      (search line2, seen2)
    else (st.hit, seen)
  let hit := hitSeen.1
  let seenF := hitSeen.2
  let done := match to_offset with | none => true | some t => decide ((seenF : Int) > t)
  ((hit, done), { seen_bytes := seenF, hit := hit })

/-- The initialization code of GrepCondition._check_all (run by the
priming `next(chk)`): one primed matcher per registered grep site whose
pattern is constant and whose cache entry for this path is still unset,
in registration order. -/
def chkInitRegexen : List GrepSite → GrepsMap → String → List ChkEntry
  | [], _, _ => []
  | g :: rest, G, d =>
    match as_constant g.pattern with
    | some c =>
        if (grepsGet G g.gid d).isNone then
          { g := g, pat := c, m := {} } :: chkInitRegexen rest G d
        else chkInitRegexen rest G d
    | none => chkInitRegexen rest G d

def chkInit (sitesL : List GrepSite) (G : GrepsMap) (d : String) : ChkState :=
  { regexen := chkInitRegexen sitesL G d, misses := [] }

/-- The per-line body of GrepCondition._check_all: feed the line to every
live matcher; a hit stores True, a done without hit stores False and joins
`misses`; decided sites are removed. -/
def chkSendGo (lib : Lib) (d : String) (line : String) :
    List ChkEntry → GrepsMap → List ChkEntry → List GrepSite →
    GrepsMap × List ChkEntry × List GrepSite
  | [], G, keep, misses => (G, keep, misses)
  | e :: rest, G, keep, misses =>
    let r := matcherStep e.g.from_offset e.g.to_offset (lib.reSearch e.pat) e.m line
    if r.1.1 then
      chkSendGo lib d line rest (grepsSet G e.g.gid d true) keep misses
    else if r.1.2 then
      chkSendGo lib d line rest (grepsSet G e.g.gid d false) keep (misses ++ [e.g])
    else
      chkSendGo lib d line rest G (keep ++ [{ e with m := r.2 }]) misses

/-- `chk.send(line)`: returns the yielded `bool(len(regexen))` (after this
line's deletions), the updated cache and the updated generator state. -/
def chkSend (lib : Lib) (G : GrepsMap) (d : String) (st : ChkState)
    (line : String) : Bool × GrepsMap × ChkState :=
  let r := chkSendGo lib d line st.regexen G [] st.misses
  (!r.2.1.isEmpty, r.1, { regexen := r.2.1, misses := r.2.2 })

/-- The GeneratorExit handler of _check_all (`chk.close()` or end of
file): every pending or missed site with an unset entry for this path is
recorded False. The `g in world.greps` key-presence guard of the source
always holds in-session for these sites (their cache row was touched when
their matcher was created) and is not represented. -/
def chkCloseGo (d : String) : List GrepSite → GrepsMap → GrepsMap
  | [], G => G
  | g :: rest, G =>
      chkCloseGo d rest
        (if (grepsGet G g.gid d).isNone then grepsSet G g.gid d false else G)

def chkClose (G : GrepsMap) (d : String) (st : ChkState) : GrepsMap :=
  chkCloseGo d (st.regexen.map (fun e => e.g) ++ st.misses) G

/-- The `for line in fh` loop of GrepCondition.check, with the for-else
clause as the empty-list case. `matcher` is the private matcher of a
non-constant pattern (its compiled pattern string and state); `chk` is
the live coalesced scan. The final `return world.greps[self][dat]` is a
KeyError when the entry is unset. -/
def checkLoop (lib : Lib) (self : GrepSite) (d : String) :
    World → Option (String × MState) → Option ChkState → List String →
    Except Err (Bool × World)
  | w, matcher, chk, [] =>
      let G := w.greps
      let G := match matcher with
        | some _ => grepsSet G self.gid d false
        | none => G
      let G := match chk with
        | some st => chkClose G d st
        | none => G
      let w := { w with greps := G, reads := dictDel w.reads d }
      (match grepsGet G self.gid d with
       | some b => .ok (b, w)
       | none => .error .keyError)
  | w, matcher, chk, line :: rest =>
      let step1 : Option (String × MState) × GrepsMap :=
        match matcher with
        | some (pat, m) =>
            let r := matcherStep self.from_offset self.to_offset (lib.reSearch pat) m line
            let G := if r.1.1 then grepsSet w.greps self.gid d true else w.greps
            (if r.1.1 || r.1.2 then none else some (pat, r.2), G)
        | none => (none, w.greps)
      let matcher2 := step1.1
      let step2 : Option ChkState × GrepsMap :=
        match chk with
        | some st =>
            let r := chkSend lib step1.2 d st line
            (if r.1 then some r.2.2 else none,
             if r.1 then r.2.1 else chkClose r.2.1 d r.2.2)
        | none => (none, step1.2)
      let chk2 := step2.1
      let w2 := { w with greps := step2.2 }
      if matcher2.isNone && chk2.isNone then
        let w3 := { w2 with reads := dictDel w2.reads d }
        (match grepsGet w3.greps self.gid d with
         | some b => .ok (b, w3)
         | none => .error .keyError)
      else if (grepsGet w2.greps self.gid d).isSome then
        let w3 := match chk2 with
          | some st => { w2 with reads := dictSet w2.reads d { remaining := rest, chk := st } }
          | none => w2
        (match grepsGet w3.greps self.gid d with
         | some b => .ok (b, w3)
         | none => .error .keyError)
      else
        checkLoop lib self d w2 matcher2 chk2 rest

/-- GrepCondition.check. `sitesL` is the module-level `greps` weak set of
registered sites, in registration order. -/
def grepCheck (lib : Lib) (sitesL : List GrepSite) (self : GrepSite)
    (ds : Option Expr) (w : World) (value : Routable) :
    Except Err (Bool × World) := do
  let patv ← evalExpr lib.getenv w value self.pattern
  match optstr patv with
  | none => pure (false, w)
  | some pat =>
    let dat ← get_path_data lib.getenv ds w value
    match dat with
    | none => pure (false, w)   -- `if dat:` — a Path is always truthy, None is not
    | some d =>
      match grepsGet w.greps self.gid d with
      | some b => pure (b, w)
      | none =>
        let matcher : Option (String × MState) :=
          if (as_constant self.pattern).isNone then some (pat, {}) else none
        match dictGet w.reads d with
        | some rs => checkLoop lib self d w matcher (some rs.chk) rs.remaining
        | none =>
          let st := chkInit sitesL w.greps d
          match lib.fsLines d with
          | none => .error .osError   -- open(dat, "rb") raised
          | some lines => do
              let _ ← w.var "debugtrace" none   -- the trace read asserts an active routable
              checkLoop lib self d w matcher (some st) lines

/-- The capture writes of RegexCondition.check:
`for i, g in enumerate(m.groups()): world.set_var(str(i + 1), g)`. -/
def setGroups (w : World) (i : Nat) : List (Option String) → Except Err World
  | [] => .ok w
  | g :: rest => do
      let w2 ← w.set_var (toString i) g
      setGroups w2 (i + 1) rest

/-- `for k, g in m.groupdict().items(): world.set_var(k, g)`. -/
def setGroupdict (w : World) : List (String × Option String) → Except Err World
  | [] => .ok w
  | (k, g) :: rest => do
      let w2 ← w.set_var k g
      setGroupdict w2 rest

/-- `m & 0xF000`: the file-type bits consulted by the stat module. -/
def S_IFMT_bits (m : Nat) : Nat := m &&& 0xF000

/-- ast.StatFileTypeCondition.MODE_TYPES as a lookup (`.get`): the mapping
from filetype word to mode predicate. On Linux CPython, S_ISDOOR, S_ISPORT
and S_ISWHT always return False. -/
def MODE_TYPES_get : String → Option (Nat → Bool)
  | "dir" => some (fun m => decide (S_IFMT_bits m = 0x4000))
  | "chardev" => some (fun m => decide (S_IFMT_bits m = 0x2000))
  | "blockdev" => some (fun m => decide (S_IFMT_bits m = 0x6000))
  | "file" => some (fun m => decide (S_IFMT_bits m = 0x8000))
  | "fifo" => some (fun m => decide (S_IFMT_bits m = 0x1000))
  | "pipe" => some (fun m => decide (S_IFMT_bits m = 0x1000))
  | "sock" => some (fun m => decide (S_IFMT_bits m = 0xC000))
  | "door" => some (fun _ => false)
  | "port" => some (fun _ => false)
  | "wht" => some (fun _ => false)
  | "whiteout" => some (fun _ => false)
  | _ => none

mutual
/-- Condition.check dispatch for every ast condition class. -/
def condCheck (lib : Lib) (sitesL : List GrepSite) (c : Cond) (w : World)
    (value : Routable) : Except Err (Bool × World) :=
  match c with
  | .and _ children => condAll lib sitesL children w value
  | .or _ children => condAny lib sitesL children w value
  | .not _ child => do
      let r ← condCheck lib sitesL child w value
      pure (!r.1, r.2)
  | .glob ds pattern => do
      let dat ← get_str_data lib.getenv ds w value
      let patv ← evalExpr lib.getenv w value pattern
      pure (match dat, optstr patv with
        | some dd, some pp => (lib.fnmatchcase dd pp, w)
        | _, _ => (false, w))
  | .regex ds pattern => do
      let dat ← get_str_data lib.getenv ds w value
      match dat with
      | none => pure (false, w)
      | some dd => do
        let patv ← evalExpr lib.getenv w value pattern
        match optstr patv with
        | none => pure (false, w)
        | some pp =>
          match lib.reMatch pp dd with
          | some m => do
              let w1 ← w.set_var "0" (some m.group0)
              let w2 ← setGroups w1 1 m.groups
              let w3 ← setGroupdict w2 m.groupdict
              pure (true, w3)
          | none => pure (false, w)
  | .statFileType ds filetype => do
      let dat ← get_path_data lib.getenv ds w value
      let pathname ← w.var "file" dat
      let r ← World.stat_path lib w pathname
      match r.1 with
      | none => pure (false, r.2)
      | some m =>
        pure (match MODE_TYPES_get filetype with
          | some f => (f m, r.2)
          | none => (false, r.2))
  | .grep ds site => grepCheck lib sitesL site ds w value

/-- AndCondition.check: `all(...)` over a generator, evaluating in order
and stopping at the first false, with earlier side effects kept. -/
def condAll (lib : Lib) (sitesL : List GrepSite) :
    List Cond → World → Routable → Except Err (Bool × World)
  | [], w, _ => .ok (true, w)
  | c :: cs, w, value => do
      let r ← condCheck lib sitesL c w value
      if r.1 then condAll lib sitesL cs r.2 value else pure (false, r.2)

/-- OrCondition.check: `any(...)`, short-circuiting on the first true. -/
def condAny (lib : Lib) (sitesL : List GrepSite) :
    List Cond → World → Routable → Except Err (Bool × World)
  | [], w, _ => .ok (false, w)
  | c :: cs, w, value => do
      let r ← condCheck lib sitesL c w value
      if r.1 then pure (true, r.2) else condAny lib sitesL cs r.2 value
end

end Plumb

namespace Plumb

/-!
## Operation scheduler and interpreter (world.py)
-/

namespace World

/-- World.add_op. The dependency scan compares the new Op's provides
names against each existing Op's requires names; on the first overlap the
source appends to `newop.requires_op` and then runs
`op.provides.append(self)` — Op has no attribute `provides`, so that
first overlap raises AttributeError and nothing observable survives. -/
def add_op (w : World) (newop : Op) : Except Err World :=
  if w.ops.any (fun op =>
      newop.provides_names.any (fun a =>
        op.requires_names.any (fun b => decide (a = b)))) then
    .error .attributeError
  else
    .ok { w with ops := w.ops ++ [newop],
                 pending_ops := w.pending_ops ++ [w.ops.length] }

/-- World.add_rsync. `os.path.sep` is the POSIX "/". The Op is appended
to `rsync[dst]` before `add_op` runs, exactly as in the source; the
returned index identifies the Op object. -/
def add_rsync (w : World) (dst : String) (srcs : List String) :
    Except Err (World × Nat) :=
  (({ w with rsync := dictSet w.rsync dst (((dictGet w.rsync dst).getD []) ++ [w.ops.length]) }).add_op
      { type := "rsync", args := srcs,
        requires_names := srcs,
        provides_names :=
          if endsWithSep dst then srcs.map (fun s => pathJoin dst (pathName s))
          else [dst] }).map
    (fun w2 => (w2, w.ops.length))

/-- World.add_move. Note that no provides_names are assigned. -/
def add_move (w : World) (dst : String) (src : String) :
    Except Err (World × Nat) :=
  (({ w with move_files := dictSet w.move_files dst (((dictGet w.move_files dst).getD []) ++ [w.ops.length]) }).add_op
      { type := "mv", args := [src], requires_names := [src] }).map
    (fun w2 => (w2, w.ops.length))

/-- World.add_shell. -/
def add_shell (w : World) (reqs : List String) (cmd : List String) :
    Except Err World :=
  ({ w with shell_commands := w.shell_commands ++ [w.ops.length] }).add_op
    { type := "shell", args := cmd, requires_names := reqs }

/-- Op.ready(): memoized all-requirements-executed check, writing the
`ready_` cache back into the op list. -/
def opReady (w : World) (i : Nat) : Bool × World :=
  match w.ops.get? i with
  | none => (false, w)
  | some o =>
    if o.ready_ then (true, w)
    else
      let r := o.requires_op.all (fun j =>
        match w.ops.get? j with
        | some oj => oj.executed
        | none => false)
      (r, { w with ops := w.ops.set i { o with ready_ := r } })

/-- `goable = [s for s in srcs if s.ready() and not s.executed]`. -/
def goableFilter (w : World) : List Nat → List Nat × World
  | [] => ([], w)
  | i :: rest =>
      let r1 := w.opReady i
      let ex := match r1.2.ops.get? i with
        | some o => o.executed
        | none => false
      let r2 := r1.2.goableFilter rest
      (if r1.1 && !ex then i :: r2.1 else r2.1, r2.2)

def opsArgs (w : World) (idxs : List Nat) : List String :=
  idxs.flatMap (fun i =>
    match w.ops.get? i with
    | some o => o.args
    | none => [])

def markExecuted (w : World) (idxs : List Nat) : World :=
  idxs.foldl (fun w2 i =>
    match w2.ops.get? i with
    | some o => { w2 with ops := w2.ops.set i { o with executed := true } }
    | none => w2) w

/-- One pass of the rsync (or move) translation block of World.run: for
each destination in dict insertion order, collect the ready unexecuted
ops, mark them executed, and enqueue one shell command
`pre ++ args ++ [dest]` (with `pre` = ["rsync", "-vaP"] or ["mv"]);
the shell command is enqueued even when the group is empty, as in the
source. Returns the accumulated executed list. -/
def runGroups (pre : List String) :
    List (String × List Nat) → World → List Nat → Except Err (World × List Nat)
  | [], w, executed => .ok (w, executed)
  | (dest, srcs) :: rest, w, executed => do
      let g := w.goableFilter srcs
      let args := opsArgs g.2 g.1
      let cmd := pre ++ args ++ [dest]
      let w2 := markExecuted g.2 g.1
      let w3 ← w2.add_shell args cmd
      runGroups pre rest w3 (executed ++ g.1)

/-- The dry-run sink loop of World.run: print (here: record) the argument
vector of every ready unexecuted shell command, in insertion order. The
POSIX-shell quoting of `shlex.join` is formatting and is not modelled. -/
def shellLoopDry : List Nat → World → List (List String) → List Nat →
    World × List (List String) × List Nat
  | [], w, out, executed => (w, out, executed)
  | i :: rest, w, out, executed =>
      let r1 := w.opReady i
      let w1 := r1.2
      let info := match w1.ops.get? i with
        | some o => (o.executed, o.args)
        | none => (true, [])
      if !r1.1 || info.1 then shellLoopDry rest w1 out executed
      else
        let w2 := match w1.ops.get? i with
          | some o => { w1 with ops := w1.ops.set i { o with executed := true } }
          | none => w1
        shellLoopDry rest w2 (out ++ [info.2]) (executed ++ [i])

/-- The live-run branch: the first ready command reaches the placeholder
expression `system.execute.the.command.notimplemented`, a NameError. -/
def shellLoopLive : List Nat → World → List Nat → Except Err (World × List Nat)
  | [], w, executed => .ok (w, executed)
  | i :: rest, w, executed =>
      let r1 := w.opReady i
      if !r1.1 then shellLoopLive rest r1.2 executed
      else .error .nameError

/-- One iteration of the `while self.pending_ops` loop of World.run. -/
def runIter (w : World) (out : List (List String)) :
    Except Err (World × List (List String)) := do
  let r1 ← runGroups ["rsync", "-vaP"] w.rsync w []
  let r2 ← runGroups ["mv"] r1.1.move_files r1.1 r1.2
  let w2 := r2.1
  let r3 ←
    if w2.dry_run then
      let r := shellLoopDry w2.shell_commands w2 out r2.2
      pure r
    else do
      let r ← shellLoopLive w2.shell_commands w2 r2.2
      pure (r.1, out, r.2)
  let w3 := r3.1
  let _ ← w3.var "debugtrace" none   -- the trace read asserts an active routable
  let executed := r3.2.2
  pure ({ w3 with pending_ops := w3.pending_ops.filter (fun i => !(executed.contains i)) },
        r3.2.1)

/-- World.run, with `fuel` bounding the number of while iterations (an
embedding device, not part of the source; `fuelOut` marks exhaustion).
Returns the final world and the dry-run output. -/
def runLoop : Nat → World → List (List String) →
    Except Err (World × List (List String))
  | 0, w, out => if w.pending_ops.isEmpty then .ok (w, out) else .error .fuelOut
  | fuel + 1, w, out =>
      if w.pending_ops.isEmpty then .ok (w, out)
      else do
        let r ← runIter w out
        runLoop fuel r.1 r.2

def run (fuel : Nat) (w : World) : Except Err (World × List (List String)) :=
  runLoop fuel w []

end World

/-- Command.run dispatch: RuleCommand, ConditionCommand, SetVariable,
CopyToAction, MoveToAction, StopAction, InspectAction. -/
def cmdRun (lib : Lib) (sitesL : List GrepSite) (cmd : Command) (w : World)
    (value : Routable) : Except Err (World × CommandResult) :=
  match cmd with
  | .rule _ => .ok (w, .NEXT_COMMAND)
  | .conditionCmd c => do
      let r ← condCheck lib sitesL c w value
      pure (r.2, if r.1 then .NEXT_COMMAND else .NEXT_RULE)
  | .setVariable v rhs => do
      let rv ← evalExpr lib.getenv w value rhs
      let w2 ← w.set_var v (optstr rv)
      pure (w2, .NEXT_COMMAND)
  | .copyTo dest => do
      let src := optstr value.data
      let dstv ← evalExpr lib.getenv w value dest
      match src, optstr dstv with
      | some s, some dst => do
          let r ← w.add_rsync dst [s]
          pure (r.1, .NEXT_COMMAND)
      | _, _ => pure (w, .NEXT_COMMAND)
  | .moveTo dest => do
      let src := optstr value.data
      let dstv ← evalExpr lib.getenv w value dest
      match src, optstr dstv with
      | some s, some dst => do
          let r ← w.add_move dst s
          pure (r.1, .NEXT_COMMAND)
      | _, _ => pure (w, .NEXT_COMMAND)
  | .stop => .ok (w, .STOP)
  | .inspect arg =>
      match arg with
      | .all => .ok (w, .NEXT_COMMAND)
      | .noneArg => .ok (w, .NEXT_COMMAND)
      | .expr e => do
          let _ ← evalExpr lib.getenv w value e
          pure (w, .NEXT_COMMAND)
      | .cond c => do
          let r ← condCheck lib sitesL c w value
          pure (r.2, .NEXT_COMMAND)

namespace World

/-- The command loop of World.route: dispatch on the current control
mode; the `debugtrace` read at the top of the body asserts an active
routable. -/
def routeLoop (lib : Lib) (sitesL : List GrepSite) (value : Routable) :
    List Command → World → Except Err World
  | [], w => .ok w
  | cmd :: rest, w => do
      let _ ← w.var "debugtrace" none
      match w.mode with
      | .NEXT_COMMAND => do
          let r ← cmdRun lib sitesL cmd w value
          routeLoop lib sitesL value rest { r.1 with mode := r.2 }
      | .NEXT_RULE =>
          if cmd.isRule then do
            let r ← cmdRun lib sitesL cmd w value
            routeLoop lib sitesL value rest { r.1 with mode := r.2 }
          else routeLoop lib sitesL value rest w
      | .STOP => .ok w

/-- World.route: entry resets the control mode to NEXT_COMMAND and runs
the command loop. -/
def route (lib : Lib) (sitesL : List GrepSite) (w : World)
    (commands : List Command) (value : Routable) : Except Err World :=
  routeLoop lib sitesL value commands { w with mode := .NEXT_COMMAND }

end World

end Plumb

namespace Plumb

/-!
## Concrete fixtures for witness evaluations
-/

/-- A concrete library oracle: search is whole-line equality, files have
no content and stats fail (overridden pointwise where a scenario needs
more). -/
def lib0 : Lib :=
  { reSearch := fun pat line => decide (pat = line)
    reMatch := fun _ _ => none
    fnmatchcase := fun d p => decide (d = p)
    getenv := fun _ => none
    fsStat := fun _ => none
    fsLines := fun _ => none }

/-- A concrete routable: data "a" under working directory "/w". -/
def r0 : Routable :=
  { src := "", dst := "", data := some "a", original_data := some "a",
    type := "text", wdir := some "/w", attr := [] }

/-!
## C10 — environment access requires an active routable
-/

/-- C10: every World.var read and World.set_var write has the
precondition that a routable has been installed; with no active routable
both fail with the assertion error instead of returning the default. -/
theorem c10_env_requires_routable (w : World) (key : String) (default : Value)
    (value : Option String) (h : w.obj = none) :
    w.var key default = .error .assertionError ∧
    w.set_var key value = .error .assertionError := by
  constructor
  · unfold World.var
    rw [h]
  · unfold World.set_var
    rw [h]

theorem c10_witness :
    ({} : World).var "x" none = .error .assertionError ∧
    ({} : World).set_var "x" (some "v") = .error .assertionError :=
  ⟨(c10_env_requires_routable {} "x" none (some "v") rfl).1,
   (c10_env_requires_routable {} "x" none (some "v") rfl).2⟩

/-!
## C9 — StatFileType on a failing stat
-/

/-- A world whose `file` variable points to a path the filesystem cannot
stat (lib0.fsStat is always None, i.e. Path.stat() raises). -/
def w9 : World := { obj := some r0, vars := [("file", some "/missing")] }

/-- C9 counterexample: the claim says a failing stat makes StatFileType
return false; on the code the OSError of `Path(p).stat()` propagates out
of World.stat_path uncaught, so the check raises instead. -/
theorem c9_counterexample :
    condCheck lib0 [] (.statFileType none "file") w9 r0 = .error .osError := by
  rfl

/-- C9 amended: StatFileTypeCondition.check returns false when the
candidate path is nil (stat_path returns None); when the stat itself
fails, the OSError propagates and the check raises. -/
theorem c9_amended (lib : Lib) (sitesL : List GrepSite) (ft p : String)
    (w : World) (value : Routable) (obj : Routable) :
    (w.obj = some obj → value.data = none → dictGet w.vars "file" = none →
      condCheck lib sitesL (.statFileType none ft) w value = .ok (false, w))
    ∧ (w.obj = some obj → dictGet w.vars "file" = some (some p) →
        dictGet w._stat_cache p = none → lib.fsStat p = none →
        condCheck lib sitesL (.statFileType none ft) w value = .error .osError) := by
  constructor
  · intro hobj hdata hfile
    simp [condCheck, get_path_data, optpath, hdata, World.var, hobj, hfile,
      World.stat_path, bind, Except.bind, pure, Except.pure]
  · intro hobj hfile hcache hstat
    simp [condCheck, get_path_data, optpath, World.var, hobj, hfile,
      World.stat_path, hcache, hstat, bind, Except.bind, pure, Except.pure]

def r9b : Routable := { r0 with data := none }

theorem c9_witness :
    condCheck lib0 [] (.statFileType none "file") { obj := some r9b } r9b
      = .ok (false, { obj := some r9b })
    ∧ condCheck lib0 [] (.statFileType none "file") w9 r0 = .error .osError :=
  ⟨(c9_amended lib0 [] "file" "/missing" { obj := some r9b } r9b r9b).1 rfl rfl rfl,
   (c9_amended lib0 [] "file" "/missing" w9 r0 r0).2 rfl rfl rfl rfl⟩

/-!
## C7 — derived file/dir recomputation on reserved writes
-/

/-- The state after routing r0 in: obj installed, derived vars set. -/
def w7 : World :=
  { obj := some r0, vars := [("dir", some "/w"), ("file", some "/w/a")] }

/-- C7 counterexample: writing the reserved name `data` does not recompute
the derived variables. With wdir "/w" and file previously "/w/a", setting
data to "b" leaves `file` at "/w/a" although wdir joined with data is now
"/w/b". -/
theorem c7_counterexample :
    (w7.set_var "data" (some "b")).map
        (fun w2 => (dictGet w2.vars "file",
                    w2.obj.map (fun o => (o.wdir, o.data))))
      = .ok (some (some "/w/a"), some (some "/w", some "b"))
    ∧ pathJoin "/w" "b" = "/w/b"
    ∧ ("/w/a" : String) ≠ "/w/b" := by
  refine ⟨by rfl, by rfl, by decide⟩

/-- C7 amended: after a write to `wdir` with a non-empty value the derived
variables are recomputed (file = wdir joined with data, dir = its parent,
when data is set); a write to `data` only updates the routable field and
the plain variable and recomputes nothing. -/
theorem c7_amended (w : World) (obj : Routable) (v d s : String)
    (hobj : w.obj = some obj) :
    (obj.data = some d → v ≠ "" →
      (w.set_var "wdir" (some v)).map
          (fun w2 => (dictGet w2.vars "file", dictGet w2.vars "dir"))
        = .ok (some (some (pathJoin (pathNorm v) d)),
               some (some (pathParent (pathJoin (pathNorm v) d)))))
    ∧ w.set_var "data" (some s)
        = .ok { w with obj := some { obj with data := some s },
                       vars := dictSet w.vars "data" (some s) } := by
  constructor
  · intro hdata hv
    simp [World.set_var, hobj, truthyStr, hv, World.init_obj_dir_vars,
      World.set_plain_var, optstr, hdata, bind, Except.bind, pure, Except.pure,
      Except.map, dictGet_dictSet]
  · simp [World.set_var, hobj, World.set_plain_var, bind, Except.bind,
      pure, Except.pure]

theorem c7_witness :
    (w7.set_var "wdir" (some "/v2")).map
        (fun w2 => (dictGet w2.vars "file", dictGet w2.vars "dir"))
      = .ok (some (some "/v2/a"), some (some "/v2"))
    ∧ w7.set_var "data" (some "zz")
        = .ok { w7 with obj := some { r0 with data := some "zz" },
                        vars := dictSet w7.vars "data" (some "zz") } := by
  constructor
  · have h := (c7_amended w7 r0 "/v2" "a" "zz" rfl).1 rfl (by decide)
    simpa using h
  · exact (c7_amended w7 r0 "/v2" "a" "zz" rfl).2

/-!
## C6 — CopyTo / MoveTo enqueue shapes
-/

def destTmp : Expr := .lit "/tmp/"

/-- C6 counterexample: the claim says MoveTo follows the same
requires/provides rule as CopyTo; in the code World.add_move never
assigns provides_names, so the enqueued mv Op provides nothing instead
of [dst/basename(src)]. -/
theorem c6_counterexample :
    (cmdRun lib0 [] (.moveTo destTmp) { obj := some r0 } r0).map
        (fun r => r.1.ops.map (fun o => (o.type, o.args, o.requires_names, o.provides_names)))
      = .ok [("mv", ["a"], ["a"], [])]
    ∧ pathJoin "/tmp/" (pathName "a") = "/tmp/a"
    ∧ ([] : List String) ≠ ["/tmp/a"] := by
  refine ⟨by rfl, by rfl, by decide⟩

/-- World.add_op when the (buggy) dependency scan finds no name overlap:
the op is appended to the op list and the pending list. -/
theorem add_op_no_overlap (w : World) (newop : Op)
    (h : ∀ op ∈ w.ops, ∀ a ∈ newop.provides_names, ¬ a ∈ op.requires_names) :
    w.add_op newop
      = .ok { w with ops := w.ops ++ [newop],
                     pending_ops := w.pending_ops ++ [w.ops.length] } := by
  unfold World.add_op
  rw [if_neg]
  intro hc
  obtain ⟨op, hop, hinner⟩ := List.any_eq_true.mp hc
  obtain ⟨a, ha, hinner2⟩ := List.any_eq_true.mp hinner
  obtain ⟨b, hb, hab⟩ := List.any_eq_true.mp hinner2
  exact h op hop a ha ((of_decide_eq_true hab) ▸ hb)

/-- C6 amended: for non-nil src and dst, CopyTo enqueues an Op of kind
rsync with args [src], requires_names [src] and provides_names
[dst/basename(src)] when dst ends in the path separator, else [dst]
(provided the buggy dependency scan of add_op does not fire); MoveTo
enqueues an Op of kind mv with args [src] and requires_names [src], but
its provides_names are left empty. -/
theorem c6_amended (lib : Lib) (sitesL : List GrepSite) (w : World)
    (value : Routable) (dest : Expr) (s dst : String)
    (hs : optstr value.data = some s)
    (hd : evalExpr lib.getenv w value dest = .ok (some dst)) :
    ((∀ op ∈ w.ops, ∀ a ∈ (if endsWithSep dst then [pathJoin dst (pathName s)] else [dst]),
        ¬ a ∈ op.requires_names) →
      cmdRun lib sitesL (.copyTo dest) w value
        = .ok ({ w with
                  rsync := dictSet w.rsync dst (((dictGet w.rsync dst).getD []) ++ [w.ops.length]),
                  ops := w.ops ++ [{ type := "rsync", args := [s],
                                     requires_names := [s],
                                     provides_names :=
                                       if endsWithSep dst then [pathJoin dst (pathName s)]
                                       else [dst] }],
                  pending_ops := w.pending_ops ++ [w.ops.length] },
               .NEXT_COMMAND))
    ∧ cmdRun lib sitesL (.moveTo dest) w value
        = .ok ({ w with
                  move_files := dictSet w.move_files dst (((dictGet w.move_files dst).getD []) ++ [w.ops.length]),
                  ops := w.ops ++ [{ type := "mv", args := [s],
                                     requires_names := [s] }],
                  pending_ops := w.pending_ops ++ [w.ops.length] },
               .NEXT_COMMAND) := by
  constructor
  · intro hno
    have hs2 : value.data = some s := hs
    have hstep : cmdRun lib sitesL (.copyTo dest) w value
        = (w.add_rsync dst [s]).map (fun r => (r.1, CommandResult.NEXT_COMMAND)) := by
      simp [cmdRun, hs2, hd, bind, Except.bind, optstr, pure, Except.pure, Except.map]
    rw [hstep]
    unfold World.add_rsync
    rw [add_op_no_overlap]
    · rfl
    · intro op hop a ha
      exact hno op hop a ha
  · have hs2 : value.data = some s := hs
    have hstep : cmdRun lib sitesL (.moveTo dest) w value
        = (w.add_move dst s).map (fun r => (r.1, CommandResult.NEXT_COMMAND)) := by
      simp [cmdRun, hs2, hd, bind, Except.bind, optstr, pure, Except.pure, Except.map]
    rw [hstep]
    unfold World.add_move
    rw [add_op_no_overlap]
    · rfl
    · intro op hop a ha
      simp at ha

theorem c6_witness :
    cmdRun lib0 [] (.copyTo destTmp) { obj := some r0 } r0
      = .ok ({ obj := some r0,
               rsync := [("/tmp/", [0])],
               ops := [{ type := "rsync", args := ["a"],
                         requires_names := ["a"],
                         provides_names := ["/tmp/a"] }],
               pending_ops := [0] },
             .NEXT_COMMAND)
    ∧ cmdRun lib0 [] (.moveTo destTmp) { obj := some r0 } r0
      = .ok ({ obj := some r0,
               move_files := [("/tmp/", [0])],
               ops := [{ type := "mv", args := ["a"], requires_names := ["a"] }],
               pending_ops := [0] },
             .NEXT_COMMAND) := by
  constructor
  · have h := (c6_amended lib0 [] { obj := some r0 } r0 destTmp "a" "/tmp/"
      rfl rfl).1 (by intro op hop; simp at hop)
    simpa using h
  · have h := (c6_amended lib0 [] { obj := some r0 } r0 destTmp "a" "/tmp/"
      rfl rfl).2
    simpa using h

/-!
## C2 — lowering of a grep atom
-/

/-- The parse tree of the one-command program `grep "x"`. -/
def c2Tree : CmdTree :=
  .conditioncommand (.condition none (.grepT (.fstr [.strChar "x"])))

/-- C2: lowering the program `grep "x"` raises TypeError instead of
producing a GrepCondition — CommandTree.grep calls `GrepCondition(regex)`
with one positional argument while the dataclass requires both
`condition_args` and `pattern`. The f-string itself lowers fine (to
ExprLiteral "x"), as the second conjunct shows. -/
theorem c2_grep_lowering_raises :
    lowerProgram [c2Tree] = .error .typeError
    ∧ lowerExpr (.fstr [.strChar "x"]) = .ok (.lit "x") := by
  exact ⟨rfl, rfl⟩

/-!
## C5 — flush order of the operation scheduler
-/

def w5 : World := { obj := some r0 }

/-- C5: enqueue copy X to /final/, then copy A to /stage/ (Op A), then
copy /stage/A to /final/ (Op B, which requires the name /stage/A that
Op A provides). The claim says B is emitted to the shell sink only after
A; the flush instead groups by destination in dict insertion order and
emits B's command (the /final/ group) strictly before A's (the /stage/
group). No requires_op link exists because World.add_op compares the new
Op's provides against existing requires (the reversed direction), and the
only code path that would record a link crashes on the missing
`Op.provides` attribute. -/
theorem c5_flush_order_inversion :
    ((do
        let a ← w5.add_rsync "/final/" ["X"]
        let b ← a.1.add_rsync "/stage/" ["A"]
        let c ← b.1.add_rsync "/final/" ["/stage/A"]
        c.1.run 3).map Prod.snd)
      = .ok [["rsync", "-vaP", "X", "/stage/A", "/final/"],
             ["rsync", "-vaP", "A", "/stage/"]]
    ∧ (Op.mk "rsync" ["A"] ["A"] [] ["/stage/A"] [] false false).provides_names
        = (Op.mk "rsync" ["/stage/A"] ["/stage/A"] [] ["/final/A"] [] false false).requires_names := by
  exact ⟨rfl, rfl⟩

/-- The AttributeError face of the same bug: when the (reversed)
name-overlap condition does fire — a consumer already enqueued, then the
producer enqueued — add_op raises AttributeError on `op.provides`. -/
theorem c5_add_op_crash :
    (do
        let a ← w5.add_rsync "/final/" ["/stage/A"]
        a.1.add_rsync "/stage/" ["A"])
      = .error .attributeError := by
  rfl

/-!
## C4 — the unbounded matcher reports done on every line
-/

def g4 : GrepSite := { gid := 0, pattern := .lit "beta" }

def lib4 : Lib :=
  { lib0 with
      reSearch := fun pat line => decide (pat = line),
      fsLines := fun _ => some ["alpha", "beta"] }

def w4 : World := { obj := some r0 }

/-- C4: for a grep site with neither bound, one matcher step on the first
fed line already reports done=true (the source computes
`done = to_offset is None or ...`), so the whole check decides the site
false after line "alpha" even though line "beta" of the same file matches
the pattern. -/
theorem c4_unbounded_matcher_done :
    (matcherStep none none (lib4.reSearch "beta") {} "alpha").1 = (false, true)
    ∧ lib4.reSearch "beta" "beta" = true
    ∧ grepCheck lib4 [g4] g4 none w4 r0
        = .ok (false, { w4 with greps := [(0, [("a", false)])] }) := by
  refine ⟨rfl, by decide, rfl⟩

/-!
## C1 — interpreter control modes
-/

/-- C1: World.route enters with the mode reset to NEXT_COMMAND; while the
mode is NEXT_RULE every non-Rule command (Stop included) is skipped
without running and without any state change, a Rule command runs and
resets the mode to NEXT_COMMAND; once the mode is STOP no further command
of the program runs and the world is returned as is. -/
theorem c1_route_control (lib : Lib) (sitesL : List GrepSite)
    (cmds cs : List Command) (c : Command) (lbl : String)
    (value : Routable) (w : World) (o : Routable) :
    (World.route lib sitesL w cmds value
        = World.routeLoop lib sitesL value cmds { w with mode := .NEXT_COMMAND })
    ∧ (w.obj = some o → w.mode = .NEXT_RULE → c.isRule = false →
        World.routeLoop lib sitesL value (c :: cs) w
          = World.routeLoop lib sitesL value cs w)
    ∧ (w.obj = some o → w.mode = .NEXT_RULE →
        World.routeLoop lib sitesL value (.rule lbl :: cs) w
          = World.routeLoop lib sitesL value cs { w with mode := .NEXT_COMMAND })
    ∧ (w.obj = some o → w.mode = .STOP →
        World.routeLoop lib sitesL value cmds w = .ok w) := by
  have hvar : w.obj = some o →
      w.var "debugtrace" none = .ok ((dictGet w.vars "debugtrace").getD none) := by
    intro hobj
    simp [World.var, hobj]
  refine ⟨rfl, ?_, ?_, ?_⟩
  · intro hobj hmode hrule
    simp only [World.routeLoop, hvar hobj, hmode, bind, Except.bind, hrule,
      Bool.false_eq_true, if_false]
  · intro hobj hmode
    simp only [World.routeLoop, hvar hobj, hmode, bind, Except.bind,
      Command.isRule, if_true, cmdRun]
  · intro hobj hmode
    cases cmds with
    | nil => rfl
    | cons c2 rest =>
        simp only [World.routeLoop, hvar hobj, hmode, bind, Except.bind]

def w1nr : World := { obj := some r0, mode := .NEXT_RULE }
def w1st : World := { obj := some r0, mode := .STOP }

theorem c1_witness :
    World.routeLoop lib0 [] r0 [Command.stop, Command.rule "t"] w1nr
      = World.routeLoop lib0 [] r0 [Command.rule "t"] w1nr
    ∧ World.routeLoop lib0 [] r0 [Command.rule "t"] w1nr
      = World.routeLoop lib0 [] r0 [] { w1nr with mode := .NEXT_COMMAND }
    ∧ World.routeLoop lib0 [] r0 [Command.stop] w1st = .ok w1st :=
  ⟨(c1_route_control lib0 [] [] [Command.rule "t"] Command.stop "t" r0 w1nr r0).2.1
      rfl rfl rfl,
   (c1_route_control lib0 [] [] [] Command.stop "t" r0 w1nr r0).2.2.1 rfl rfl,
   (c1_route_control lib0 [] [Command.stop] [] Command.stop "t" r0 w1st r0).2.2.2
      rfl rfl⟩

/-!
## C8 — boolean-chain collapse and Or-flatness
-/

theorem matchNode_orK_some {c : Cond} {p : Option Expr × List Cond}
    (h : matchNode .orK c = some p) : c = .or p.1 p.2 := by
  cases c with
  | or ds cs =>
      simp only [matchNode, Option.some.injEq] at h
      subst h
      rfl
  | and ds cs => simp [matchNode] at h
  | not ds c => simp [matchNode] at h
  | glob ds p2 => simp [matchNode] at h
  | regex ds p2 => simp [matchNode] at h
  | statFileType ds f => simp [matchNode] at h
  | grep ds g => simp [matchNode] at h

theorem matchNode_andK_some {c : Cond} {p : Option Expr × List Cond}
    (h : matchNode .andK c = some p) : c = .and p.1 p.2 := by
  cases c with
  | and ds cs =>
      simp only [matchNode, Option.some.injEq] at h
      subst h
      rfl
  | or ds cs => simp [matchNode] at h
  | not ds c => simp [matchNode] at h
  | glob ds p2 => simp [matchNode] at h
  | regex ds p2 => simp [matchNode] at h
  | statFileType ds f => simp [matchNode] at h
  | grep ds g => simp [matchNode] at h

theorem matchNode_orK_none {c : Cond} (h : matchNode .orK c = none) :
    isOr c = false := by
  cases c <;> simp_all [matchNode, isOr]

theorem noOrOrList_append (l1 l2 : List Cond) :
    noOrOrList (l1 ++ l2) = (noOrOrList l1 && noOrOrList l2) := by
  induction l1 with
  | nil => simp [noOrOrList]
  | cons c cs ih => simp [noOrOrList, ih, Bool.and_assoc]

theorem noOrOrChildren_append (l1 l2 : List Cond) :
    noOrOrChildren (l1 ++ l2) = (noOrOrChildren l1 && noOrOrChildren l2) := by
  induction l1 with
  | nil => simp [noOrOrChildren]
  | cons c cs ih => simp [noOrOrChildren, ih, Bool.and_assoc]

theorem junctionCore_noOrOr (node : JKind) (l r : Cond)
    (hl : noOrOr l = true) (hr : noOrOr r = true) :
    noOrOr (junctionCore node l r) = true := by
  cases node with
  | orK =>
      cases hL : matchNode .orK l with
      | some pl =>
          obtain ⟨lds, lcs⟩ := pl
          have hel := matchNode_orK_some hL
          subst hel
          cases hR : matchNode .orK r with
          | some pr =>
              obtain ⟨rds, rcs⟩ := pr
              have her := matchNode_orK_some hR
              subst her
              simp only [junctionCore, hL, hR, mkNode]
              simp only [noOrOr] at hl hr ⊢
              rw [noOrOrChildren_append, hl, hr]
              rfl
          | none =>
              have hro := matchNode_orK_none hR
              simp only [junctionCore, hL, hR, mkNode]
              simp only [noOrOr] at hl ⊢
              rw [noOrOrChildren_append, hl]
              simp [noOrOrChildren, hro, hr]
      | none =>
          have hlo := matchNode_orK_none hL
          cases hR : matchNode .orK r with
          | some pr =>
              obtain ⟨rds, rcs⟩ := pr
              have her := matchNode_orK_some hR
              subst her
              simp only [junctionCore, hL, hR, mkNode]
              simp only [noOrOr] at hr ⊢
              simp [noOrOrChildren, hlo, hl, hr]
          | none =>
              have hro := matchNode_orK_none hR
              simp only [junctionCore, hL, hR, mkNode]
              simp only [noOrOr]
              simp [noOrOrChildren, hlo, hl, hro, hr]
  | andK =>
      cases hL : matchNode .andK l with
      | some pl =>
          obtain ⟨lds, lcs⟩ := pl
          have hel := matchNode_andK_some hL
          subst hel
          cases hR : matchNode .andK r with
          | some pr =>
              obtain ⟨rds, rcs⟩ := pr
              have her := matchNode_andK_some hR
              subst her
              simp only [junctionCore, hL, hR, mkNode]
              simp only [noOrOr] at hl hr ⊢
              rw [noOrOrList_append, hl, hr]
              rfl
          | none =>
              simp only [junctionCore, hL, hR, mkNode]
              simp only [noOrOr] at hl ⊢
              rw [noOrOrList_append, hl]
              simp [noOrOrList, hr]
      | none =>
          cases hR : matchNode .andK r with
          | some pr =>
              obtain ⟨rds, rcs⟩ := pr
              have her := matchNode_andK_some hR
              subst her
              simp only [junctionCore, hL, hR, mkNode]
              simp only [noOrOr] at hr ⊢
              simp [noOrOrList, hl, hr]
          | none =>
              simp only [junctionCore, hL, hR, mkNode]
              simp only [noOrOr]
              simp [noOrOrList, hl, hr]

theorem noOrOrChildren_globs (ps : List Expr) :
    noOrOrChildren (ps.map (fun p => Cond.glob none p)) = true := by
  induction ps with
  | nil => rfl
  | cons p rest ih => simp [noOrOrChildren, isOr, noOrOr, ih]

theorem globLower_noOrOr (ps : List Expr) : noOrOr (globLower ps) = true := by
  cases ps with
  | nil => rfl
  | cons p1 rest =>
    cases rest with
    | nil => rfl
    | cons p2 rest2 =>
        have hg := noOrOrChildren_globs (p1 :: p2 :: rest2)
        simp only [List.map] at hg
        simp [globLower, noOrOr, hg]

theorem noOrOr_set_datasource (c : Cond) (ds : Option Expr) :
    noOrOr (c.set_datasource ds) = noOrOr c := by
  cases c <;> rfl

theorem lowerAtom_noOrOr (a : AtomTree) (c : Cond) (h : lowerAtom a = .ok c) :
    noOrOr c = true := by
  cases a with
  | glob pats =>
      cases hx : lowerExprList pats with
      | error e => simp [lowerAtom, hx, Except.map] at h
      | ok ps =>
          simp [lowerAtom, hx, Except.map] at h
          rw [← h]
          exact globLower_noOrOr ps
  | matchT f =>
      cases hx : lowerExpr f with
      | error e => simp [lowerAtom, hx, Except.map] at h
      | ok e =>
          simp [lowerAtom, hx, Except.map] at h
          rw [← h]
          rfl
  | grepT f =>
      cases hx : lowerExpr f with
      | error e => simp [lowerAtom, hx, bind, Except.bind] at h
      | ok e => simp [lowerAtom, hx, bind, Except.bind] at h
  | is_filemodetype ft =>
      by_cases hft : ft ∈ MODE_TYPES_keys
      · simp [lowerAtom, hft] at h
        rw [← h]
        rfl
      · simp [lowerAtom, hft] at h

theorem lowerCond_noOrOr (t : CondTree) (c : Cond) (h : lowerCond t = .ok c) :
    noOrOr c = true := by
  induction t generalizing c with
  | condition ds atom =>
      cases ds with
      | none =>
          cases ha : lowerAtom atom with
          | error e => simp [lowerCond, ha, bind, Except.bind, pure, Except.pure] at h
          | ok ca =>
              simp [lowerCond, ha, bind, Except.bind, pure, Except.pure] at h
              rw [← h, noOrOr_set_datasource]
              exact lowerAtom_noOrOr atom ca ha
      | some dt =>
          cases hd : lowerExpr dt with
          | error e => simp [lowerCond, hd, bind, Except.bind, Except.map] at h
          | ok d =>
              cases ha : lowerAtom atom with
              | error e =>
                  simp [lowerCond, hd, ha, bind, Except.bind, Except.map,
                    pure, Except.pure] at h
              | ok ca =>
                  simp [lowerCond, hd, ha, bind, Except.bind, Except.map,
                    pure, Except.pure] at h
                  rw [← h, noOrOr_set_datasource]
                  exact lowerAtom_noOrOr atom ca ha
  | notcondition t ih =>
      cases hx : lowerCond t with
      | error e => simp [lowerCond, hx, Except.map] at h
      | ok cc =>
          simp [lowerCond, hx, Except.map] at h
          rw [← h]
          simpa [noOrOr] using ih cc hx
  | junction l op r ihl ihr =>
      cases hL : lowerCond l with
      | error e => simp [lowerCond, hL, bind, Except.bind] at h
      | ok lc =>
        cases hR : lowerCond r with
        | error e => simp [lowerCond, hL, hR, bind, Except.bind] at h
        | ok rc =>
          simp [lowerCond, hL, hR, bind, Except.bind, pure, Except.pure] at h
          rw [← h]
          unfold junctioncondition
          exact junctionCore_noOrOr _ lc rc (ihl lc hL) (ihr rc hR)

/-- The parse tree of the program `glob x z or glob y q`. -/
def c8Tree : CmdTree :=
  .conditioncommand (.junction
    (.condition none (.glob [.bareword "x", .bareword "z"])) "or"
    (.condition none (.glob [.bareword "y", .bareword "q"])))

/-- C8: `glob x z or glob y q` lowers to exactly one condition command
whose condition is a single Or with the four Glob children in order
x, z, y, q; and in general no condition produced by the lowering has an
Or node with a direct Or child. -/
theorem c8_boolean_flatten :
    (lowerProgram [c8Tree]
       = .ok [.conditionCmd (.or none
           [.glob none (.lit "x"), .glob none (.lit "z"),
            .glob none (.lit "y"), .glob none (.lit "q")])])
    ∧ (∀ t cnd, lowerCond t = .ok cnd → noOrOr cnd = true) :=
  ⟨rfl, fun t cnd h => lowerCond_noOrOr t cnd h⟩

theorem c8_witness :
    noOrOr (.or none [.glob none (.lit "x"), .glob none (.lit "z")]) = true :=
  c8_boolean_flatten.2 (.condition none (.glob [.bareword "x", .bareword "z"]))
    (.or none [.glob none (.lit "x"), .glob none (.lit "z")]) rfl

/-!
## C3 — grep cache finality
-/

theorem grepsGet_grepsSet (G : GrepsMap) (gid : Nat) (d : String) (b : Bool)
    (gid2 : Nat) (d2 : String) :
    grepsGet (grepsSet G gid d b) gid2 d2
      = if gid2 = gid ∧ d2 = d then some b else grepsGet G gid2 d2 := by
  by_cases h1 : gid2 = gid
  · subst h1
    by_cases h2 : d2 = d
    · subst h2
      simp [grepsGet, grepsSet, dictGet_dictSet]
    · have hna : ¬(gid2 = gid2 ∧ d2 = d) := fun hc => h2 hc.2
      rw [if_neg hna]
      simp only [grepsGet, grepsSet]
      rw [dictGet_dictSet, if_pos rfl]
      simp only [Option.some_bind]
      rw [dictGet_dictSet, if_neg h2]
      cases hG : dictGet G gid2 <;> simp [hG, dictGet]
  · have hna : ¬(gid2 = gid ∧ d2 = d) := fun hc => h1 hc.1
    rw [if_neg hna]
    simp only [grepsGet, grepsSet]
    rw [dictGet_dictSet, if_neg h1]

/-- Cache entries only become set and never change once set. -/
def grepsStable (G1 G2 : GrepsMap) : Prop :=
  ∀ gid d b, grepsGet G1 gid d = some b → grepsGet G2 gid d = some b

theorem grepsStable_refl (G : GrepsMap) : grepsStable G G := fun _ _ _ h => h

theorem grepsStable_trans {G1 G2 G3 : GrepsMap}
    (h1 : grepsStable G1 G2) (h2 : grepsStable G2 G3) : grepsStable G1 G3 :=
  fun gid d b h => h2 gid d b (h1 gid d b h)

theorem grepsStable_set_unset {G : GrepsMap} {gid : Nat} {d : String} {b : Bool}
    (h : grepsGet G gid d = none) : grepsStable G (grepsSet G gid d b) := by
  intro gid2 d2 b2 h2
  rw [grepsGet_grepsSet]
  by_cases hc : gid2 = gid ∧ d2 = d
  · exact absurd h2 (by rw [hc.1, hc.2, h]; simp)
  · rw [if_neg hc]; exact h2

/-- All live coalesced matchers of a _check_all state are for registered
constant-pattern sites with pairwise distinct identities whose cache
entries for this path are still unset; every site in `misses` has a set
entry (it was written when it was decided). -/
structure ChkWF (sitesL : List GrepSite) (G : GrepsMap) (d : String)
    (st : ChkState) : Prop where
  mem : ∀ e ∈ st.regexen, e.g ∈ sitesL ∧ as_constant e.g.pattern = some e.pat
  nodup : (st.regexen.map (fun e => e.g.gid)).Nodup
  unset : ∀ e ∈ st.regexen, grepsGet G e.g.gid d = none
  missesSet : ∀ g ∈ st.misses, (grepsGet G g.gid d).isSome = true

/-- Session well-formedness of the grep subsystem: registered sites have
pairwise distinct identities and every parked read state is well formed
for its path. -/
structure SessionWF (sitesL : List GrepSite) (w : World) : Prop where
  snodup : (sitesL.map (fun g => g.gid)).Nodup
  readsWF : ∀ d rs, dictGet w.reads d = some rs → ChkWF sitesL w.greps d rs.chk

theorem gid_inj {sitesL : List GrepSite}
    (hsnodup : (sitesL.map (fun g => g.gid)).Nodup)
    {g1 g2 : GrepSite} (h1 : g1 ∈ sitesL) (h2 : g2 ∈ sitesL)
    (heq : g1.gid = g2.gid) : g1 = g2 :=
  List.inj_on_of_nodup_map hsnodup h1 h2 heq

/-- C3 counterexample for the claim as stated: a call for a (site, path)
pair whose cache entry is already set to true returns false when the
pattern expression evaluates to nil, because GrepCondition.check
evaluates the pattern and returns early on None before consulting the
cache. -/
def s3 : GrepSite := { gid := 0, pattern := .varref "x" }

def r3 : Routable := { r0 with data := some "f" }

def w3c : World := { obj := some r3, greps := [(0, [("f", true)])] }

theorem c3_counterexample :
    grepCheck lib0 [s3] s3 none w3c r3 = .ok (false, w3c)
    ∧ grepsGet w3c.greps s3.gid "f" = some true
    ∧ (false ≠ true) := by
  refine ⟨rfl, rfl, by decide⟩

/-- What one _check_all line step guarantees: cache writes are stable and
confined to path `d` and to the fed sites; surviving matchers descend
from the fed or already-kept ones, stay identity-distinct and undecided;
missed sites are decided. -/
structure ChkSendGoOut (G : GrepsMap) (d : String)
    (entries keep : List ChkEntry)
    (out : GrepsMap × List ChkEntry × List GrepSite) : Prop where
  stable : grepsStable G out.1
  other : ∀ gid p, p ≠ d → grepsGet out.1 gid p = grepsGet G gid p
  untouched : ∀ gid, gid ∉ entries.map (fun e => e.g.gid) →
      grepsGet out.1 gid d = grepsGet G gid d
  prov : ∀ e ∈ out.2.1, ∃ e0, (e0 ∈ entries ∨ e0 ∈ keep) ∧ e.g = e0.g ∧ e.pat = e0.pat
  nodup : (out.2.1.map (fun e => e.g.gid)).Nodup
  unset : ∀ e ∈ out.2.1, grepsGet out.1 e.g.gid d = none
  missesSet : ∀ g ∈ out.2.2, (grepsGet out.1 g.gid d).isSome = true

theorem chkSendGo_inv (lib : Lib) (d : String) (line : String)
    (entries : List ChkEntry) :
    ∀ (G : GrepsMap) (keep : List ChkEntry) (misses : List GrepSite),
    (entries.map (fun e => e.g.gid)).Nodup →
    (keep.map (fun e => e.g.gid)).Nodup →
    (∀ x ∈ entries.map (fun e => e.g.gid), x ∉ keep.map (fun e => e.g.gid)) →
    (∀ e ∈ entries, grepsGet G e.g.gid d = none) →
    (∀ e ∈ keep, grepsGet G e.g.gid d = none) →
    (∀ g ∈ misses, (grepsGet G g.gid d).isSome = true) →
    ChkSendGoOut G d entries keep (chkSendGo lib d line entries G keep misses) := by
  induction entries with
  | nil =>
      intro G keep misses _ hkn _ _ hku hm
      refine ⟨grepsStable_refl G, fun _ _ _ => rfl, fun _ _ => rfl, ?_, hkn, hku, hm⟩
      intro e he
      exact ⟨e, Or.inr he, rfl, rfl⟩
  | cons e rest ih =>
      intro G keep misses hend hkn hdisj hun hku hm
      have hegid : e.g.gid ∉ rest.map (fun x => x.g.gid) := by
        have := hend
        simp only [List.map_cons, List.nodup_cons] at this
        exact this.1
      have hrestnd : (rest.map (fun x => x.g.gid)).Nodup := by
        have := hend
        simp only [List.map_cons, List.nodup_cons] at this
        exact this.2
      have hekeep : e.g.gid ∉ keep.map (fun x => x.g.gid) := by
        apply hdisj
        simp
      have hdisjrest : ∀ x ∈ rest.map (fun x => x.g.gid),
          x ∉ keep.map (fun x => x.g.gid) := by
        intro x hx
        apply hdisj
        simp [hx]
      have hrestun : ∀ e2 ∈ rest, grepsGet G e2.g.gid d = none := by
        intro e2 he2
        exact hun e2 (by simp [he2])
      have heun : grepsGet G e.g.gid d = none := hun e (by simp)
      -- unset entries survive a write to e's identity
      have hsetun : ∀ (b : Bool) (e2 : ChkEntry), e2.g.gid ≠ e.g.gid →
          grepsGet (grepsSet G e.g.gid d b) e2.g.gid d = grepsGet G e2.g.gid d := by
        intro b e2 hne
        rw [grepsGet_grepsSet, if_neg (fun hc => hne hc.1)]
      rcases hm1 : matcherStep e.g.from_offset e.g.to_offset (lib.reSearch e.pat) e.m line
        with ⟨⟨hit, done⟩, m2⟩
      cases hit with
      | true =>
          have hout := ih (grepsSet G e.g.gid d true) keep misses hrestnd hkn hdisjrest
            (by
              intro e2 he2
              have hne : e2.g.gid ≠ e.g.gid := by
                intro hc
                exact hegid (hc ▸ (List.mem_map_of_mem (fun x => x.g.gid) he2))
              rw [hsetun true e2 hne]
              exact hrestun e2 he2)
            (by
              intro e2 he2
              have hne : e2.g.gid ≠ e.g.gid := by
                intro hc
                exact hekeep (hc ▸ (List.mem_map_of_mem (fun x => x.g.gid) he2))
              rw [hsetun true e2 hne]
              exact hku e2 he2)
            (by
              intro g hg
              have := hm g hg
              rcases Option.isSome_iff_exists.mp this with ⟨b, hb⟩
              have : grepsGet (grepsSet G e.g.gid d true) g.gid d = some b :=
                grepsStable_set_unset heun g.gid d b hb
              simp [this])
          have hstep : chkSendGo lib d line (e :: rest) G keep misses
              = chkSendGo lib d line rest (grepsSet G e.g.gid d true) keep misses := by
            simp [chkSendGo, hm1]
          rw [hstep]
          refine ⟨grepsStable_trans (grepsStable_set_unset heun) hout.stable, ?_, ?_, ?_,
            hout.nodup, hout.unset, hout.missesSet⟩
          · intro gid p hp
            rw [hout.other gid p hp, grepsGet_grepsSet, if_neg (fun hc => hp hc.2)]
          · intro gid hgid
            have hgn : gid ∉ rest.map (fun x => x.g.gid) := by
              intro hc
              exact hgid (by simp [hc])
            have hge : gid ≠ e.g.gid := by
              intro hc
              exact hgid (by simp [hc])
            rw [hout.untouched gid hgn, grepsGet_grepsSet, if_neg (fun hc => hge hc.1)]
          · intro e2 he2
            rcases hout.prov e2 he2 with ⟨e0, h0, hg, hp⟩
            exact ⟨e0, by rcases h0 with h | h; exact Or.inl (by simp [h]); exact Or.inr h,
              hg, hp⟩
      | false =>
        cases done with
        | true =>
            have hout := ih (grepsSet G e.g.gid d false) keep (misses ++ [e.g])
              hrestnd hkn hdisjrest
              (by
                intro e2 he2
                have hne : e2.g.gid ≠ e.g.gid := by
                  intro hc
                  exact hegid (hc ▸ (List.mem_map_of_mem (fun x => x.g.gid) he2))
                rw [hsetun false e2 hne]
                exact hrestun e2 he2)
              (by
                intro e2 he2
                have hne : e2.g.gid ≠ e.g.gid := by
                  intro hc
                  exact hekeep (hc ▸ (List.mem_map_of_mem (fun x => x.g.gid) he2))
                rw [hsetun false e2 hne]
                exact hku e2 he2)
              (by
                intro g hg
                rcases List.mem_append.mp hg with hg | hg
                · have := hm g hg
                  rcases Option.isSome_iff_exists.mp this with ⟨b, hb⟩
                  have : grepsGet (grepsSet G e.g.gid d false) g.gid d = some b :=
                    grepsStable_set_unset heun g.gid d b hb
                  simp [this]
                · have hge : g = e.g := by simpa using hg
                  subst hge
                  rw [grepsGet_grepsSet, if_pos ⟨rfl, rfl⟩]
                  rfl)
            have hstep : chkSendGo lib d line (e :: rest) G keep misses
                = chkSendGo lib d line rest (grepsSet G e.g.gid d false) keep
                    (misses ++ [e.g]) := by
              simp [chkSendGo, hm1]
            rw [hstep]
            refine ⟨grepsStable_trans (grepsStable_set_unset heun) hout.stable, ?_, ?_, ?_,
              hout.nodup, hout.unset, hout.missesSet⟩
            · intro gid p hp
              rw [hout.other gid p hp, grepsGet_grepsSet, if_neg (fun hc => hp hc.2)]
            · intro gid hgid
              have hgn : gid ∉ rest.map (fun x => x.g.gid) := by
                intro hc
                exact hgid (by simp [hc])
              have hge : gid ≠ e.g.gid := by
                intro hc
                exact hgid (by simp [hc])
              rw [hout.untouched gid hgn, grepsGet_grepsSet, if_neg (fun hc => hge hc.1)]
            · intro e2 he2
              rcases hout.prov e2 he2 with ⟨e0, h0, hg, hp⟩
              exact ⟨e0, by rcases h0 with h | h; exact Or.inl (by simp [h]); exact Or.inr h,
                hg, hp⟩
        | false =>
            have hkeepnd : ((keep ++ [{ e with m := m2 }]).map (fun x : ChkEntry => x.g.gid)).Nodup := by
              simp only [List.map_append, List.map_cons, List.map_nil]
              rw [List.nodup_append]
              refine ⟨hkn, by simp, ?_⟩
              intro x hx
              simp only [List.mem_singleton]
              intro hc
              subst hc
              exact hekeep hx
            have hout := ih G (keep ++ [{ e with m := m2 }]) misses hrestnd hkeepnd
              (by
                intro x hx
                rw [List.map_append]
                intro hc
                rcases List.mem_append.mp hc with hc | hc
                · exact hdisjrest x hx hc
                · have : x = e.g.gid := by simpa using hc
                  subst this
                  exact hegid hx)
              hrestun
              (by
                intro e2 he2
                rcases List.mem_append.mp he2 with h | h
                · exact hku e2 h
                · have : e2 = { e with m := m2 } := by simpa using h
                  subst this
                  exact heun)
              hm
            have hstep : chkSendGo lib d line (e :: rest) G keep misses
                = chkSendGo lib d line rest G (keep ++ [{ e with m := m2 }]) misses := by
              simp [chkSendGo, hm1]
            rw [hstep]
            refine ⟨hout.stable, hout.other, ?_, ?_, hout.nodup, hout.unset, hout.missesSet⟩
            · intro gid hgid
              exact hout.untouched gid (fun hc => hgid (by simp [hc]))
            · intro e2 he2
              rcases hout.prov e2 he2 with ⟨e0, h0, hg, hp⟩
              rcases h0 with h | h
              · exact ⟨e0, Or.inl (by simp [h]), hg, hp⟩
              · rcases List.mem_append.mp h with h | h
                · exact ⟨e0, Or.inr h, hg, hp⟩
                · have : e0 = { e with m := m2 } := by simpa using h
                  subst this
                  exact ⟨e, Or.inl (by simp), hg, hp⟩

theorem chkCloseGo_inv (d : String) (gs : List GrepSite) :
    ∀ G, grepsStable G (chkCloseGo d gs G)
      ∧ (∀ gid p, p ≠ d → grepsGet (chkCloseGo d gs G) gid p = grepsGet G gid p) := by
  induction gs with
  | nil => exact fun G => ⟨grepsStable_refl G, fun _ _ _ => rfl⟩
  | cons g rest ih =>
      intro G
      by_cases hg : (grepsGet G g.gid d).isNone = true
      · have hnone : grepsGet G g.gid d = none := Option.isNone_iff_eq_none.mp hg
        have h1 : chkCloseGo d (g :: rest) G
            = chkCloseGo d rest (grepsSet G g.gid d false) := by
          simp [chkCloseGo, hg]
        rcases ih (grepsSet G g.gid d false) with ⟨hs, ho⟩
        constructor
        · rw [h1]
          exact grepsStable_trans (grepsStable_set_unset hnone) hs
        · intro gid p hp
          rw [h1, ho gid p hp, grepsGet_grepsSet, if_neg (fun hc => hp hc.2)]
      · have h1 : chkCloseGo d (g :: rest) G = chkCloseGo d rest G := by
          simp [chkCloseGo, hg]
        rcases ih G with ⟨hs, ho⟩
        exact ⟨h1 ▸ hs, by intro gid p hp; rw [h1, ho gid p hp]⟩

theorem chkCloseGo_allSet (d : String) (gs : List GrepSite) :
    ∀ G, (∀ g ∈ gs, (grepsGet G g.gid d).isSome = true) →
      chkCloseGo d gs G = G := by
  induction gs with
  | nil => exact fun G _ => rfl
  | cons g rest ih =>
      intro G hset
      have hg : (grepsGet G g.gid d).isNone = false := by
        have := hset g (by simp)
        cases hX : grepsGet G g.gid d
        · rw [hX] at this; simp at this
        · simp [hX]
      have h1 : chkCloseGo d (g :: rest) G = chkCloseGo d rest G := by
        simp [chkCloseGo, hg]
      rw [h1]
      exact ih G (fun g2 hg2 => hset g2 (by simp [hg2]))

/-- chk.close() on a state whose live set is empty and whose missed sites
are all decided leaves the cache untouched. -/
theorem chkClose_noop (G : GrepsMap) (d : String) (st : ChkState)
    (hre : st.regexen = [])
    (hm : ∀ g ∈ st.misses, (grepsGet G g.gid d).isSome = true) :
    chkClose G d st = G := by
  unfold chkClose
  rw [hre]
  simp only [List.map_nil, List.nil_append]
  exact chkCloseGo_allSet d st.misses G hm

theorem chkClose_inv (G : GrepsMap) (d : String) (st : ChkState) :
    grepsStable G (chkClose G d st)
    ∧ (∀ gid p, p ≠ d → grepsGet (chkClose G d st) gid p = grepsGet G gid p) :=
  chkCloseGo_inv d (st.regexen.map (fun e => e.g) ++ st.misses) G

theorem chkInitRegexen_mem (sitesL : List GrepSite) (G : GrepsMap) (d : String) :
    ∀ e ∈ chkInitRegexen sitesL G d,
      e.g ∈ sitesL ∧ as_constant e.g.pattern = some e.pat
        ∧ grepsGet G e.g.gid d = none := by
  induction sitesL with
  | nil => intro e he; simp [chkInitRegexen] at he
  | cons g rest ih =>
      intro e he
      cases hc : as_constant g.pattern with
      | none =>
          have hdef : chkInitRegexen (g :: rest) G d = chkInitRegexen rest G d := by
            simp [chkInitRegexen, hc]
          rw [hdef] at he
          rcases ih e he with ⟨h1, h2, h3⟩
          exact ⟨by simp [h1], h2, h3⟩
      | some c =>
          by_cases hun : (grepsGet G g.gid d).isNone = true
          · have hdef : chkInitRegexen (g :: rest) G d
                = { g := g, pat := c, m := {} } :: chkInitRegexen rest G d := by
              simp [chkInitRegexen, hc, hun]
            rw [hdef] at he
            rcases List.mem_cons.mp he with h | h
            · subst h
              exact ⟨by simp, hc, Option.isNone_iff_eq_none.mp hun⟩
            · rcases ih e h with ⟨h1, h2, h3⟩
              exact ⟨by simp [h1], h2, h3⟩
          · have hdef : chkInitRegexen (g :: rest) G d = chkInitRegexen rest G d := by
              simp [chkInitRegexen, hc, hun]
            rw [hdef] at he
            rcases ih e he with ⟨h1, h2, h3⟩
            exact ⟨by simp [h1], h2, h3⟩

theorem chkInitRegexen_sublist (sitesL : List GrepSite) (G : GrepsMap) (d : String) :
    ((chkInitRegexen sitesL G d).map (fun e => e.g)).Sublist sitesL := by
  induction sitesL with
  | nil => simp [chkInitRegexen]
  | cons g rest ih =>
      cases hc : as_constant g.pattern with
      | none =>
          have hdef : chkInitRegexen (g :: rest) G d = chkInitRegexen rest G d := by
            simp [chkInitRegexen, hc]
          rw [hdef]
          exact ih.cons g
      | some c =>
          by_cases hun : (grepsGet G g.gid d).isNone = true
          · have hdef : chkInitRegexen (g :: rest) G d
                = { g := g, pat := c, m := {} } :: chkInitRegexen rest G d := by
              simp [chkInitRegexen, hc, hun]
            rw [hdef]
            simp only [List.map_cons]
            exact ih.cons₂ g
          · have hdef : chkInitRegexen (g :: rest) G d = chkInitRegexen rest G d := by
              simp [chkInitRegexen, hc, hun]
            rw [hdef]
            exact ih.cons g

theorem chkInit_ChkWF (sitesL : List GrepSite) (G : GrepsMap) (d : String)
    (hsnodup : (sitesL.map (fun g => g.gid)).Nodup) :
    ChkWF sitesL G d (chkInit sitesL G d) := by
  refine ⟨?_, ?_, ?_, ?_⟩
  · intro e he
    rcases chkInitRegexen_mem sitesL G d e he with ⟨h1, h2, _⟩
    exact ⟨h1, h2⟩
  · have hsub : (((chkInitRegexen sitesL G d).map (fun e => e.g)).map (fun g => g.gid)).Sublist
        (sitesL.map (fun g => g.gid)) :=
      (chkInitRegexen_sublist sitesL G d).map (fun g => g.gid)
    have := hsnodup.sublist hsub
    simpa [List.map_map, Function.comp] using this
  · intro e he
    exact (chkInitRegexen_mem sitesL G d e he).2.2
  · intro g hg
    simp [chkInit] at hg

theorem ChkWF_mono {sitesL : List GrepSite} {G G2 : GrepsMap} {p : String}
    {st : ChkState} (h : ChkWF sitesL G p st)
    (heq : ∀ gid, grepsGet G2 gid p = grepsGet G gid p) :
    ChkWF sitesL G2 p st := by
  refine ⟨h.mem, h.nodup, ?_, ?_⟩
  · intro e he
    rw [heq]
    exact h.unset e he
  · intro g hg
    rw [heq]
    exact h.missesSet g hg

/-- A write to the identity of a non-constant site cannot touch any live
coalesced matcher (those sites are constant), so ChkWF survives it. -/
theorem ChkWF_after_selfSet {sitesL : List GrepSite} {G : GrepsMap} {d : String}
    {st : ChkState} {self : GrepSite}
    (hsnodup : (sitesL.map (fun g => g.gid)).Nodup) (hself : self ∈ sitesL)
    (hncon : as_constant self.pattern = none)
    (hwf : ChkWF sitesL G d st) (b : Bool) :
    ChkWF sitesL (grepsSet G self.gid d b) d st := by
  have hdisj : ∀ e ∈ st.regexen, e.g.gid ≠ self.gid := by
    intro e he hc
    rcases hwf.mem e he with ⟨hmem, hcon⟩
    have : e.g = self := gid_inj hsnodup hmem hself hc
    rw [this, hncon] at hcon
    exact Option.noConfusion hcon
  refine ⟨hwf.mem, hwf.nodup, ?_, ?_⟩
  · intro e he
    rw [grepsGet_grepsSet, if_neg (fun hc => hdisj e he hc.1)]
    exact hwf.unset e he
  · intro g hg
    rw [grepsGet_grepsSet]
    by_cases hc : g.gid = self.gid ∧ d = d
    · rw [if_pos hc]; rfl
    · rw [if_neg hc]
      exact hwf.missesSet g hg

/-- Identities of live coalesced matchers never collide with a
non-constant site. -/
theorem self_not_in_regexen {sitesL : List GrepSite} {G : GrepsMap} {d : String}
    {st : ChkState} {self : GrepSite}
    (hsnodup : (sitesL.map (fun g => g.gid)).Nodup) (hself : self ∈ sitesL)
    (hncon : as_constant self.pattern = none)
    (hwf : ChkWF sitesL G d st) :
    self.gid ∉ st.regexen.map (fun e => e.g.gid) := by
  intro hc
  rcases List.mem_map.mp hc with ⟨e, he, heq⟩
  rcases hwf.mem e he with ⟨hmem, hcon⟩
  have : e.g = self := gid_inj hsnodup hmem hself heq
  rw [this, hncon] at hcon
  exact Option.noConfusion hcon

theorem chkSend_inv (lib : Lib) (sitesL : List GrepSite) (G : GrepsMap)
    (d : String) (st : ChkState) (line : String)
    (hwf : ChkWF sitesL G d st) :
    grepsStable G (chkSend lib G d st line).2.1
    ∧ (∀ gid p, p ≠ d →
        grepsGet (chkSend lib G d st line).2.1 gid p = grepsGet G gid p)
    ∧ (∀ gid, gid ∉ st.regexen.map (fun e => e.g.gid) →
        grepsGet (chkSend lib G d st line).2.1 gid d = grepsGet G gid d)
    ∧ ChkWF sitesL (chkSend lib G d st line).2.1 d (chkSend lib G d st line).2.2
    ∧ ((chkSend lib G d st line).1 = false →
        (chkSend lib G d st line).2.2.regexen = []) := by
  have hout := chkSendGo_inv lib d line st.regexen G [] st.misses hwf.nodup
    (by simp) (by simp) hwf.unset (by simp) hwf.missesSet
  refine ⟨hout.stable, hout.other, hout.untouched, ?_, ?_⟩
  · refine ⟨?_, hout.nodup, hout.unset, hout.missesSet⟩
    intro e he
    rcases hout.prov e he with ⟨e0, h0, hg, hp⟩
    rcases h0 with h | h
    · rcases hwf.mem e0 h with ⟨hm1, hm2⟩
      refine ⟨hg ▸ hm1, ?_⟩
      rw [hg, hp]
      exact hm2
    · simp at h
  · intro halive
    have : ((chkSendGo lib d line st.regexen G [] st.misses).2.1.isEmpty) = true := by
      simpa [chkSend] using halive
    simpa [List.isEmpty_iff] using this

/-- Conclusions of one checkLoop exit that deletes the parked read for
the scanned path. -/
theorem exit_del_inv {sitesL : List GrepSite} {d : String} (w w2 : World)
    (G : GrepsMap) (hg : w2.greps = G) (hr : w2.reads = dictDel w.reads d)
    (hst : grepsStable w.greps G)
    (hB : ∀ gid p, p ≠ d → grepsGet G gid p = grepsGet w.greps gid p)
    (hreads : ∀ p rs, p ≠ d → dictGet w.reads p = some rs →
        ChkWF sitesL w.greps p rs.chk) :
    grepsStable w.greps w2.greps
    ∧ (∀ gid p, p ≠ d → grepsGet w2.greps gid p = grepsGet w.greps gid p)
    ∧ (∀ p rs, dictGet w2.reads p = some rs → ChkWF sitesL w2.greps p rs.chk) := by
  subst hg
  refine ⟨hst, hB, ?_⟩
  intro p rs hp
  rw [hr, dictGet_dictDel] at hp
  by_cases hpd : p = d
  · rw [if_pos hpd] at hp
    exact absurd hp (by simp)
  · rw [if_neg hpd] at hp
    exact ChkWF_mono (hreads p rs hpd hp) (fun gid => hB gid p hpd)

/-- Conclusions of the checkLoop exit that parks the live coalesced scan
for the scanned path. -/
theorem exit_park_inv {sitesL : List GrepSite} {d : String} (w w2 : World)
    (G : GrepsMap) (restL : List String) (st2 : ChkState)
    (hg : w2.greps = G)
    (hr : w2.reads = dictSet w.reads d { remaining := restL, chk := st2 })
    (hst : grepsStable w.greps G)
    (hB : ∀ gid p, p ≠ d → grepsGet G gid p = grepsGet w.greps gid p)
    (hwf2 : ChkWF sitesL G d st2)
    (hreads : ∀ p rs, p ≠ d → dictGet w.reads p = some rs →
        ChkWF sitesL w.greps p rs.chk) :
    grepsStable w.greps w2.greps
    ∧ (∀ gid p, p ≠ d → grepsGet w2.greps gid p = grepsGet w.greps gid p)
    ∧ (∀ p rs, dictGet w2.reads p = some rs → ChkWF sitesL w2.greps p rs.chk) := by
  subst hg
  refine ⟨hst, hB, ?_⟩
  intro p rs hp
  rw [hr, dictGet_dictSet] at hp
  by_cases hpd : p = d
  · rw [if_pos hpd] at hp
    have : rs = { remaining := restL, chk := st2 } := by
      injection hp with hh
      exact hh.symm
    subst this
    subst hpd
    exact hwf2
  · rw [if_neg hpd] at hp
    exact ChkWF_mono (hreads p rs hpd hp) (fun gid => hB gid p hpd)


/-- chkSend_inv in equation form, for a named result triple. -/
theorem chkSend_inv2 (lib : Lib) (sitesL : List GrepSite) (G : GrepsMap)
    (d : String) (st : ChkState) (line : String)
    (alive : Bool) (G2 : GrepsMap) (st2 : ChkState)
    (hcs : chkSend lib G d st line = (alive, G2, st2))
    (hwf : ChkWF sitesL G d st) :
    grepsStable G G2
    ∧ (∀ gid p, p ≠ d → grepsGet G2 gid p = grepsGet G gid p)
    ∧ (∀ gid, gid ∉ st.regexen.map (fun e => e.g.gid) →
        grepsGet G2 gid d = grepsGet G gid d)
    ∧ ChkWF sitesL G2 d st2
    ∧ (alive = false → st2.regexen = []) := by
  have h := chkSend_inv lib sitesL G d st line hwf
  rw [hcs] at h
  exact h

/-- The loop invariant of GrepCondition.check over the remaining lines:
cache writes are stable and confined to the scanned path, and every
parked read state (including one parked by this call) stays well formed. -/
theorem checkLoop_inv (lib : Lib) (sitesL : List GrepSite) (self : GrepSite)
    (d : String)
    (hsnodup : (sitesL.map (fun g => g.gid)).Nodup) (hself : self ∈ sitesL) :
    ∀ (lines : List String) (w : World) (matcher : Option (String × MState))
      (chk : Option ChkState) (res : Bool) (w2 : World),
    (∀ st, chk = some st → ChkWF sitesL w.greps d st) →
    (∀ pm, matcher = some pm →
      as_constant self.pattern = none ∧ grepsGet w.greps self.gid d = none) →
    (∀ p rs, p ≠ d → dictGet w.reads p = some rs →
        ChkWF sitesL w.greps p rs.chk) →
    checkLoop lib self d w matcher chk lines = .ok (res, w2) →
    grepsStable w.greps w2.greps
    ∧ (∀ gid p, p ≠ d → grepsGet w2.greps gid p = grepsGet w.greps gid p)
    ∧ (∀ p rs, dictGet w2.reads p = some rs → ChkWF sitesL w2.greps p rs.chk) := by
  intro lines
  induction lines with
  | nil =>
      intro w matcher chk res w2 hchk hmat hreads hloop
      cases matcher with
      | none =>
        cases chk with
        | none =>
            rcases hget : grepsGet w.greps self.gid d with _ | b <;>
              simp [checkLoop, hget] at hloop
            obtain ⟨hres, hw2⟩ := hloop
            subst hw2
            exact exit_del_inv w _ w.greps rfl rfl (grepsStable_refl _)
              (fun _ _ _ => rfl) hreads
        | some st =>
            have hcc := chkClose_inv w.greps d st
            rcases hget : grepsGet (chkClose w.greps d st) self.gid d with _ | b <;>
              simp [checkLoop, hget] at hloop
            obtain ⟨hres, hw2⟩ := hloop
            subst hw2
            exact exit_del_inv w _ (chkClose w.greps d st) rfl rfl hcc.1 hcc.2 hreads
      | some pm =>
        obtain ⟨pat, m⟩ := pm
        have hmat2 := hmat (pat, m) rfl
        cases chk with
        | none =>
            rcases hget : grepsGet (grepsSet w.greps self.gid d false) self.gid d
              with _ | b <;> simp [checkLoop, hget] at hloop
            obtain ⟨hres, hw2⟩ := hloop
            subst hw2
            exact exit_del_inv w _ (grepsSet w.greps self.gid d false) rfl rfl
              (grepsStable_set_unset hmat2.2)
              (fun gid p hp => by rw [grepsGet_grepsSet, if_neg (fun hc => hp hc.2)])
              hreads
        | some st =>
            have hcc := chkClose_inv (grepsSet w.greps self.gid d false) d st
            rcases hget : grepsGet (chkClose (grepsSet w.greps self.gid d false) d st)
                self.gid d with _ | b <;> simp [checkLoop, hget] at hloop
            obtain ⟨hres, hw2⟩ := hloop
            subst hw2
            refine exit_del_inv w _ _ rfl rfl ?_ ?_ hreads
            · exact grepsStable_trans (grepsStable_set_unset hmat2.2) hcc.1
            · intro gid p hp
              rw [hcc.2 gid p hp, grepsGet_grepsSet, if_neg (fun hc => hp hc.2)]
  | cons line restL ih =>
      intro w matcher chk res w2 hchk hmat hreads hloop
      cases matcher with
      | none =>
        cases chk with
        | none =>
            rcases hget : grepsGet w.greps self.gid d with _ | b <;>
              simp [checkLoop, hget] at hloop
            obtain ⟨hres, hw2⟩ := hloop
            subst hw2
            exact exit_del_inv w _ w.greps rfl rfl (grepsStable_refl _)
              (fun _ _ _ => rfl) hreads
        | some st =>
            have hwf := hchk st rfl
            rcases hcs : chkSend lib w.greps d st line with ⟨alive, G2, st2⟩
            obtain ⟨hstb, hother, huntouched, hwf2, halive⟩ :=
              chkSend_inv2 lib sitesL w.greps d st line alive G2 st2 hcs hwf
            cases alive with
            | true =>
                rcases hget : grepsGet G2 self.gid d with _ | b
                · simp [checkLoop, hcs, hget] at hloop
                  rcases ih { w with greps := G2 } none (some st2) res w2
                    (fun st3 h3 => by
                      injection h3 with h3
                      subst h3
                      exact hwf2)
                    (fun pm h => by simp at h)
                    (fun p rs hp hgetr =>
                      ChkWF_mono (hreads p rs hp hgetr) (fun gid => hother gid p hp))
                    hloop with ⟨ihA, ihB, ihC⟩
                  exact ⟨grepsStable_trans hstb ihA,
                    fun gid p hp => (ihB gid p hp).trans (hother gid p hp), ihC⟩
                · simp [checkLoop, hcs, hget] at hloop
                  obtain ⟨hres, hw2⟩ := hloop
                  subst hw2
                  exact exit_park_inv w _ G2 restL st2 rfl rfl hstb hother hwf2 hreads
            | false =>
                have hreg : st2.regexen = [] := halive rfl
                have hnoop : chkClose G2 d st2 = G2 :=
                  chkClose_noop G2 d st2 hreg (fun g hg => hwf2.missesSet g hg)
                rcases hget : grepsGet G2 self.gid d with _ | b <;>
                  simp [checkLoop, hcs, hnoop, hget] at hloop
                obtain ⟨hres, hw2⟩ := hloop
                subst hw2
                exact exit_del_inv w _ G2 rfl rfl hstb hother hreads
      | some pm =>
        obtain ⟨pat, m⟩ := pm
        have hmat2 := hmat (pat, m) rfl
        rcases hms : matcherStep self.from_offset self.to_offset (lib.reSearch pat) m line
          with ⟨⟨hit, done⟩, m2⟩
        cases chk with
        | none =>
          cases hit with
          | true =>
              have hget : grepsGet (grepsSet w.greps self.gid d true) self.gid d
                  = some true := by
                rw [grepsGet_grepsSet, if_pos ⟨rfl, rfl⟩]
              simp [checkLoop, hms, hget] at hloop
              obtain ⟨hres, hw2⟩ := hloop
              subst hw2
              exact exit_del_inv w _ (grepsSet w.greps self.gid d true) rfl rfl
                (grepsStable_set_unset hmat2.2)
                (fun gid p hp => by rw [grepsGet_grepsSet, if_neg (fun hc => hp hc.2)])
                hreads
          | false =>
            cases done with
            | true =>
                simp [checkLoop, hms, hmat2.2] at hloop
            | false =>
                simp [checkLoop, hms, hmat2.2] at hloop
                rcases ih _ (some (pat, m2)) none res w2
                  (fun st3 h3 => by simp at h3)
                  (fun pm2 h2 => ⟨hmat2.1, hmat2.2⟩)
                  hreads
                  hloop with ⟨ihA, ihB, ihC⟩
                exact ⟨ihA, ihB, ihC⟩
        | some st =>
          have hwf := hchk st rfl
          cases hit with
          | true =>
              have hwfG1 : ChkWF sitesL (grepsSet w.greps self.gid d true) d st :=
                ChkWF_after_selfSet hsnodup hself hmat2.1 hwf true
              rcases hcs : chkSend lib (grepsSet w.greps self.gid d true) d st line
                with ⟨alive, G2, st2⟩
              obtain ⟨hstb, hother, huntouched, hwf2, halive⟩ :=
                chkSend_inv2 lib sitesL (grepsSet w.greps self.gid d true) d st line
                  alive G2 st2 hcs hwfG1
              have hnotin : self.gid ∉ st.regexen.map (fun e => e.g.gid) :=
                self_not_in_regexen hsnodup hself hmat2.1 hwfG1
              have hSelf2 : grepsGet G2 self.gid d = some true := by
                rw [huntouched self.gid hnotin, grepsGet_grepsSet, if_pos ⟨rfl, rfl⟩]
              have hstb0 : grepsStable w.greps G2 :=
                grepsStable_trans (grepsStable_set_unset hmat2.2) hstb
              have hother0 : ∀ gid p, p ≠ d →
                  grepsGet G2 gid p = grepsGet w.greps gid p := by
                intro gid p hp
                rw [hother gid p hp, grepsGet_grepsSet, if_neg (fun hc => hp hc.2)]
              cases alive with
              | true =>
                  simp [checkLoop, hms, hcs, hSelf2] at hloop
                  obtain ⟨hres, hw2⟩ := hloop
                  subst hw2
                  exact exit_park_inv w _ G2 restL st2 rfl rfl hstb0 hother0 hwf2 hreads
              | false =>
                  have hreg : st2.regexen = [] := halive rfl
                  have hnoop : chkClose G2 d st2 = G2 :=
                    chkClose_noop G2 d st2 hreg (fun g hg => hwf2.missesSet g hg)
                  simp [checkLoop, hms, hcs, hnoop, hSelf2] at hloop
                  obtain ⟨hres, hw2⟩ := hloop
                  subst hw2
                  exact exit_del_inv w _ G2 rfl rfl hstb0 hother0 hreads
          | false =>
            rcases hcs : chkSend lib w.greps d st line with ⟨alive, G2, st2⟩
            obtain ⟨hstb, hother, huntouched, hwf2, halive⟩ :=
              chkSend_inv2 lib sitesL w.greps d st line alive G2 st2 hcs hwf
            have hnotin : self.gid ∉ st.regexen.map (fun e => e.g.gid) :=
              self_not_in_regexen hsnodup hself hmat2.1 hwf
            have hSelf2 : grepsGet G2 self.gid d = none := by
              rw [huntouched self.gid hnotin]
              exact hmat2.2
            cases done with
            | true =>
                cases alive with
                | true =>
                    simp [checkLoop, hms, hcs, hSelf2] at hloop
                    rcases ih { w with greps := G2 } none (some st2) res w2
                      (fun st3 h3 => by
                        injection h3 with h3
                        subst h3
                        exact hwf2)
                      (fun pm h => by simp at h)
                      (fun p rs hp hgetr =>
                        ChkWF_mono (hreads p rs hp hgetr) (fun gid => hother gid p hp))
                      hloop with ⟨ihA, ihB, ihC⟩
                    exact ⟨grepsStable_trans hstb ihA,
                      fun gid p hp => (ihB gid p hp).trans (hother gid p hp), ihC⟩
                | false =>
                    have hreg : st2.regexen = [] := halive rfl
                    have hnoop : chkClose G2 d st2 = G2 :=
                      chkClose_noop G2 d st2 hreg (fun g hg => hwf2.missesSet g hg)
                    simp [checkLoop, hms, hcs, hnoop, hSelf2] at hloop
            | false =>
                cases alive with
                | true =>
                    simp [checkLoop, hms, hcs, hSelf2] at hloop
                    rcases ih { w with greps := G2 } (some (pat, m2)) (some st2) res w2
                      (fun st3 h3 => by
                        injection h3 with h3
                        subst h3
                        exact hwf2)
                      (fun pm2 h2 => ⟨hmat2.1, hSelf2⟩)
                      (fun p rs hp hgetr =>
                        ChkWF_mono (hreads p rs hp hgetr) (fun gid => hother gid p hp))
                      hloop with ⟨ihA, ihB, ihC⟩
                    exact ⟨grepsStable_trans hstb ihA,
                      fun gid p hp => (ihB gid p hp).trans (hother gid p hp), ihC⟩
                | false =>
                    have hreg : st2.regexen = [] := halive rfl
                    have hnoop : chkClose G2 d st2 = G2 :=
                      chkClose_noop G2 d st2 hreg (fun g hg => hwf2.missesSet g hg)
                    simp [checkLoop, hms, hcs, hnoop, hSelf2] at hloop
                    rcases ih { w with greps := G2 } (some (pat, m2)) none res w2
                      (fun st3 h3 => by simp at h3)
                      (fun pm2 h2 => ⟨hmat2.1, hSelf2⟩)
                      (fun p rs hp hgetr =>
                        ChkWF_mono (hreads p rs hp hgetr) (fun gid => hother gid p hp))
                      hloop with ⟨ihA, ihB, ihC⟩
                    exact ⟨grepsStable_trans hstb ihA,
                      fun gid p hp => (ihB gid p hp).trans (hother gid p hp), ihC⟩

/-- One GrepCondition.check call preserves cache stability (no entry is
ever overwritten, so each (site, path) entry is assigned at most once in
a session) and session well-formedness. -/
theorem grepCheck_inv (lib : Lib) (sitesL : List GrepSite) (self : GrepSite)
    (ds : Option Expr) (w : World) (value : Routable) (res : Bool) (w2 : World)
    (hwf : SessionWF sitesL w) (hself : self ∈ sitesL)
    (hok : grepCheck lib sitesL self ds w value = .ok (res, w2)) :
    grepsStable w.greps w2.greps ∧ SessionWF sitesL w2 := by
  cases hpv : evalExpr lib.getenv w value self.pattern with
  | error e => simp [grepCheck, bind, Except.bind, pure, Except.pure, hpv] at hok
  | ok v =>
    cases v with
    | none =>
        simp [grepCheck, bind, Except.bind, pure, Except.pure, hpv, optstr] at hok
        obtain ⟨hres, hw2⟩ := hok
        subst hw2
        exact ⟨grepsStable_refl _, hwf⟩
    | some pat =>
      cases hdat : get_path_data lib.getenv ds w value with
      | error e => simp [grepCheck, bind, Except.bind, pure, Except.pure, hpv, optstr, hdat] at hok
      | ok dat =>
        cases dat with
        | none =>
            simp [grepCheck, bind, Except.bind, pure, Except.pure, hpv, optstr, hdat] at hok
            obtain ⟨hres, hw2⟩ := hok
            subst hw2
            exact ⟨grepsStable_refl _, hwf⟩
        | some dd =>
          cases hc : grepsGet w.greps self.gid dd with
          | some b =>
              simp [grepCheck, bind, Except.bind, pure, Except.pure, hpv, optstr, hdat, hc] at hok
              obtain ⟨hres, hw2⟩ := hok
              subst hw2
              exact ⟨grepsStable_refl _, hwf⟩
          | none =>
            have H2 : ∀ pm,
                (if as_constant self.pattern = none then some (pat, ({} : MState))
                 else none) = some pm →
                as_constant self.pattern = none
                  ∧ grepsGet w.greps self.gid dd = none := by
              intro pm hpm
              by_cases hcon : as_constant self.pattern = none
              · exact ⟨hcon, hc⟩
              · rw [if_neg hcon] at hpm
                exact absurd hpm (by simp)
            have Hreads : ∀ p rs, p ≠ dd → dictGet w.reads p = some rs →
                ChkWF sitesL w.greps p rs.chk :=
              fun p rs _ hp => hwf.readsWF p rs hp
            cases hr : dictGet w.reads dd with
            | some rs =>
                simp [grepCheck, bind, Except.bind, pure, Except.pure, hpv, optstr, hdat, hc, hr] at hok
                rcases checkLoop_inv lib sitesL self dd hwf.snodup hself
                  rs.remaining w _ (some rs.chk) res w2
                  (fun st3 h3 => by
                    injection h3 with h3
                    subst h3
                    exact hwf.readsWF dd rs hr)
                  H2 Hreads hok with ⟨ihA, ihB, ihC⟩
                exact ⟨ihA, ⟨hwf.snodup, ihC⟩⟩
            | none =>
              cases hfl : lib.fsLines dd with
              | none => simp [grepCheck, bind, Except.bind, pure, Except.pure, hpv, optstr, hdat, hc, hr, hfl] at hok
              | some lines =>
                cases hv : w.var "debugtrace" none with
                | error e =>
                    simp [grepCheck, bind, Except.bind, pure, Except.pure, hpv, optstr, hdat, hc, hr, hfl, hv] at hok
                | ok vv =>
                    simp [grepCheck, bind, Except.bind, pure, Except.pure, hpv, optstr, hdat, hc, hr, hfl, hv] at hok
                    rcases checkLoop_inv lib sitesL self dd hwf.snodup hself
                      lines w _ (some (chkInit sitesL w.greps dd)) res w2
                      (fun st3 h3 => by
                        injection h3 with h3
                        subst h3
                        exact chkInit_ChkWF sitesL w.greps dd hwf.snodup)
                      H2 Hreads hok with ⟨ihA, ihB, ihC⟩
                    exact ⟨ihA, ⟨hwf.snodup, ihC⟩⟩

/-- C3 amended: (i) the grep cache entry of every (site, path) pair is
assigned at most once per session — a GrepCondition.check call never
changes an already-set entry, and the session invariants are preserved;
(ii) a check call for a pair whose entry is already set, and whose
pattern expression evaluates to a non-nil string, returns the stored
boolean with the world untouched, for an arbitrary file system — so the
call opens and reads nothing. (A call whose pattern evaluates to nil
returns false without consulting the cache; see the counterexample.) -/
theorem c3_amended (lib : Lib) (fs2 : String → Option (List String))
    (sitesL : List GrepSite) (self : GrepSite) (ds : Option Expr)
    (w : World) (value : Routable) (res : Bool) (w2 : World)
    (d pat : String) (b : Bool) :
    (SessionWF sitesL w → self ∈ sitesL →
      grepCheck lib sitesL self ds w value = .ok (res, w2) →
      (∀ gid p bb, grepsGet w.greps gid p = some bb →
          grepsGet w2.greps gid p = some bb)
      ∧ SessionWF sitesL w2)
    ∧ (evalExpr lib.getenv w value self.pattern = .ok (some pat) →
       get_path_data lib.getenv ds w value = .ok (some d) →
       grepsGet w.greps self.gid d = some b →
       grepCheck { lib with fsLines := fs2 } sitesL self ds w value
         = .ok (b, w)) := by
  constructor
  · intro hwf hself hok
    exact grepCheck_inv lib sitesL self ds w value res w2 hwf hself hok
  · intro hpv hdat hc
    have hg : ({ lib with fsLines := fs2 } : Lib).getenv = lib.getenv := rfl
    simp [grepCheck, bind, Except.bind, pure, Except.pure, hg, hpv, optstr, hdat, hc]

/-- A registered constant-pattern site for the witness session. -/
def gW : GrepSite := { gid := 5, pattern := .lit "p" }

def libW : Lib := { lib0 with fsLines := fun _ => some [] }

def w3w : World := { obj := some r0, greps := [(9, [("z", true)])] }

def w3w2 : World :=
  { obj := some r0, greps := [(9, [("z", true)]), (5, [("a", false)])] }

def s3b : GrepSite := { gid := 2, pattern := .lit "q" }

def w3b : World := { obj := some r0, greps := [(2, [("a", true)])] }

theorem c3_witness :
    grepsGet w3w2.greps 9 "z" = some true
    ∧ grepCheck { lib0 with fsLines := fun _ => some ["q"] } [s3b] s3b none w3b r0
        = .ok (true, w3b) := by
  have hwf : SessionWF [gW] w3w := by
    constructor
    · simp
    · intro p rs hp
      simp [dictGet] at hp
  have h1 := (c3_amended libW (fun _ => none) [gW] gW none w3w r0 false w3w2
    "p" "q" true).1 hwf (by simp) rfl
  have h2 := (c3_amended lib0 (fun _ => some ["q"]) [s3b] s3b none w3b r0 false w3b
    "a" "q" true).2 rfl rfl rfl
  exact ⟨h1.1 9 "z" true rfl, h2⟩
